import Mathlib

/-!
Shallow embedding of the HaiberDyn terminal-pool extension
(`src/terminal-pool.ts`, `src/execute-in-terminal.ts`).

Conventions of the embedding:
* JavaScript `Map` objects become functions `α → Option β`; `Map.set` / `Map.delete`
  become the pointwise updates `mapSet` / `mapDel` below.
* The TypeScript maps store `ManagedTerminal` objects by reference; since every
  object stored in `terminalsByShell` is the very object stored in `terminalsById`
  under its `id` (they are inserted together in `registerManagedTerminal` and only
  mutated in place), `terminalsByShell` is embedded as a map from shell type to the
  session id, and reads through it dereference `terminalsById`.
* Ambient effects are explicit parameters: `Date.now()` becomes a `now : Nat`
  argument, `randomUUID()` a `newId : String` argument, and the handle of a freshly
  created `vscode.Terminal` a `newHandle : Nat` argument.
* Calls with external effects (`createTerminal`, `sendText`, `show`) are recorded
  in a `PoolEvent` trace returned next to the new state.
* Machine timers and event subscriptions of the creation race are tracked by
  explicit liveness flags mirroring each `dispose()` / `clearTimeout` call.
-/

namespace HaiberDyn

/-- `ShellType` from `src/types.ts`. -/
inductive ShellType where
  | powershell
  | gitbash
  | wsl
  | ubuntu
  | cmd
deriving DecidableEq, Repr

/-- `ShellFlavor` from `src/terminal-pool.ts`. -/
inductive ShellFlavor where
  | powershell
  | cmd
  | bash
deriving DecidableEq, Repr

/-- `ProfilePlatform` from `src/types.ts`. -/
inductive ProfilePlatform where
  | windows
  | linux
  | osx
deriving DecidableEq, Repr

/-- One entry of the host profile catalog (`ProfileEntry` in `src/terminal-pool.ts`). -/
structure ProfileEntry where
  name : String
  platform : ProfilePlatform
deriving DecidableEq, Repr

/-- A `vscode.Terminal` handle: object identity (`handle`), displayed `name`, and the
`shellPath` of its creation options (already lower-cased by the reader, see
`getShellPathFromOptions`). -/
structure Terminal where
  handle : Nat
  name : String
  shellPath : Option String
deriving DecidableEq, Repr

/-- `ManagedTerminal` from `src/terminal-pool.ts`. -/
structure ManagedTerminal where
  id : String
  terminal : Terminal
  shellType : Option ShellType
  profileName : Option String
  comment : Option String
  createdAt : Nat
  lastUsedAt : Nat
deriving DecidableEq, Repr

/-- External effects performed by pool operations. -/
inductive PoolEvent where
  | createdTerminal (shellPath : String)
  | sentText (handle : Nat) (text : String)
  | showedTerminal (handle : Nat)
deriving DecidableEq, Repr

/-- `Map.set`: point update of a map embedded as a function. -/
def mapSet {α β : Type} [DecidableEq α] (f : α → Option β) (a : α) (b : β) : α → Option β :=
  fun x => if x = a then some b else f x

/-- `Map.delete`: point removal of a map embedded as a function. -/
def mapDel {α β : Type} [DecidableEq α] (f : α → Option β) (a : α) : α → Option β :=
  fun x => if x = a then none else f x

/-- The mutable indices of `TerminalPool`: `terminalsById`, `terminalsByShell`
(holding the id of the ManagedTerminal object it aliases) and the reverse
`terminalToId` association keyed by terminal handle. -/
structure PoolState where
  terminalsById : String → Option ManagedTerminal
  terminalsByShell : ShellType → Option String
  terminalToId : Nat → Option String

/-- A freshly constructed `TerminalPool`: every index empty. -/
def initialPoolState : PoolState :=
  { terminalsById := fun _ => none
    terminalsByShell := fun _ => none
    terminalToId := fun _ => none }

/-- `SHELL_EXECUTABLE_MAP` from `src/terminal-pool.ts`. -/
def SHELL_EXECUTABLE_MAP : ShellType → String
  | .powershell => "pwsh.exe"
  | .gitbash => "bash.exe"
  | .wsl => "wsl.exe"
  | .ubuntu => "wsl.exe"
  | .cmd => "cmd.exe"

/-- The string literal naming a shell type (TypeScript string-union values). -/
def shellTypeName : ShellType → String
  | .powershell => "powershell"
  | .gitbash => "gitbash"
  | .wsl => "wsl"
  | .ubuntu => "ubuntu"
  | .cmd => "cmd"

/-- Character-level containment test used to embed JavaScript `String.includes`. -/
def isPrefixL : List Char → List Char → Bool
  | [], _ => true
  | _ :: _, [] => false
  | a :: as, b :: bs => a = b && isPrefixL as bs

/-- `haystack` contains `needle` as a contiguous substring (JS `includes`). -/
def containsL (needle : List Char) : List Char → Bool
  | [] => isPrefixL needle []
  | c :: rest => isPrefixL needle (c :: rest) || containsL needle rest

/-- JavaScript `s.includes(pat)`. -/
def strContains (s pat : String) : Bool :=
  containsL pat.data s.data

/-- JavaScript `toLowerCase` (ASCII range, sufficient for the keyword tables). -/
def toLowerJS (s : String) : String :=
  String.mk (s.data.map Char.toLower)

/-- JavaScript `toUpperCase` (ASCII range). -/
def toUpperJS (s : String) : String :=
  String.mk (s.data.map Char.toUpper)

/-- Whitespace class of JavaScript `trim` and of the regex class `\s`
(ASCII range). -/
def isJsSpace (c : Char) : Bool :=
  c = ' ' || c = '\t' || c = '\n' || c = '\r' || c = '\x0b' || c = '\x0c'

/-- JavaScript `String.prototype.trim`. -/
def trimJS (s : String) : String :=
  String.mk (((s.data.dropWhile isJsSpace).reverse.dropWhile isJsSpace).reverse)

/-- `getShellPathFromOptions` from `src/terminal-pool.ts`: the lower-cased
`shellPath` of the terminal creation options, or the empty string. -/
def getShellPathFromOptions (t : Terminal) : String :=
  match t.shellPath with
  | some p => toLowerJS p
  | none => ""

/-- `detectShellTypeFromTerminal` from `src/terminal-pool.ts`: the ordered,
first-match-wins keyword table inferring a shell type from the launch path
and profile name. -/
def detectShellTypeFromTerminal (terminal : Terminal) (profileName : Option String) :
    Option ShellType :=
  let lowerProfile := match profileName with
    | some p => toLowerJS p
    | none => ""
  let lowerShellPath := getShellPathFromOptions terminal
  if strContains lowerShellPath "pwsh" || strContains lowerShellPath "powershell" ||
      strContains lowerProfile "powershell" then
    some .powershell
  else if strContains lowerShellPath "cmd.exe" || strContains lowerProfile "command prompt" then
    some .cmd
  else if strContains lowerShellPath "bash.exe" || strContains lowerProfile "git bash" then
    some .gitbash
  else if strContains lowerShellPath "wsl.exe" || strContains lowerProfile "wsl" then
    some .wsl
  else if strContains lowerProfile "ubuntu" then
    some .ubuntu
  else
    none

/-- `getShellFlavor` from `src/terminal-pool.ts`. -/
def getShellFlavor (metadata : ManagedTerminal) : ShellFlavor :=
  let fallbackPath := getShellPathFromOptions metadata.terminal
  if metadata.shellType = some .powershell || strContains fallbackPath "pwsh" ||
      strContains fallbackPath "powershell" then
    .powershell
  else if metadata.shellType = some .cmd || strContains fallbackPath "cmd.exe" then
    .cmd
  else
    .bash

/-- Stage 1 of `quoteForShell`: `.replace(/\\/g, '\\\\')`, per character. -/
def escBackslashChar (c : Char) : List Char :=
  if c = '\\' then ['\\', '\\'] else [c]

/-- Stage 2 of `quoteForShell`: `.replace(/"/g, '\\"')`, per character. -/
def escQuoteChar (c : Char) : List Char :=
  if c = '"' then ['\\', '"'] else [c]

/-- Stage 3 of `quoteForShell`: `.replace(/\r?\n/g, ' ')` — every `\r\n` pair or
lone `\n` becomes one space (a `\r` not followed by `\n` is left in place, as the
regex does). -/
def collapseNewlines : List Char → List Char
  | [] => []
  | [c] => if c = '\n' then [' '] else [c]
  | c :: d :: rest =>
    if c = '\n' then ' ' :: collapseNewlines (d :: rest)
    else if c = '\r' then
      if d = '\n' then ' ' :: collapseNewlines rest
      else c :: collapseNewlines (d :: rest)
    else c :: collapseNewlines (d :: rest)

/-- `quoteForShell` from `src/terminal-pool.ts`: escape backslashes, escape double
quotes, then collapse line breaks to single spaces. -/
def quoteForShell (value : String) : String :=
  String.mk (collapseNewlines ((value.data.flatMap escBackslashChar).flatMap escQuoteChar))

/-- `setPromptEnvVariables` from `src/terminal-pool.ts`: the two environment
variable assignment instructions sent to the terminal, per shell flavor. -/
def setPromptEnvVariables (handle : Nat) (flavor : ShellFlavor) (id comment : String) :
    List PoolEvent :=
  let safeId := quoteForShell id
  let safeComment := quoteForShell comment
  match flavor with
  | .powershell =>
      [ .sentText handle ("$Env:HDPROMPT_ID = \"" ++ safeId ++ "\""),
        .sentText handle ("$Env:HDPROMPT_COMMENT = \"" ++ safeComment ++ "\"") ]
  | .cmd =>
      [ .sentText handle ("set \"HDPROMPT_ID=" ++ safeId ++ "\""),
        .sentText handle ("set \"HDPROMPT_COMMENT=" ++ safeComment ++ "\"") ]
  | .bash =>
      [ .sentText handle ("export HDPROMPT_ID=\"" ++ safeId ++ "\""),
        .sentText handle ("export HDPROMPT_COMMENT=\"" ++ safeComment ++ "\"") ]

/-- `applyMetadata` from `src/terminal-pool.ts`. -/
def applyMetadata (metadata : ManagedTerminal) : List PoolEvent :=
  let shellFlavor := getShellFlavor metadata
  let safeComment := match metadata.comment with
    | some c => c
    | none => ""
  setPromptEnvVariables metadata.terminal.handle shellFlavor metadata.id safeComment

/-- Optional creation options of `getOrCreateTerminal`. -/
structure CreateOptions where
  comment : Option String
  profileName : Option String
deriving DecidableEq, Repr

/-- JavaScript truthiness of an optional string (`undefined` and `""` are falsy). -/
def truthyStr : Option String → Bool
  | some s => !(s = "")
  | none => false

/-- `registerManagedTerminal` from `src/terminal-pool.ts`: insert into
`terminalsById`, into `terminalsByShell` when a shell type is present, record the
reverse handle association, refresh `lastUsedAt`, show the terminal, and apply
prompt metadata.  The object mutation `metadata.lastUsedAt = Date.now()` is folded
into the inserted record (the maps alias the same object). -/
def registerManagedTerminal (s : PoolState) (metadata : ManagedTerminal) (now : Nat) :
    ManagedTerminal × PoolState × List PoolEvent :=
  let m := { metadata with lastUsedAt := now }
  let s' : PoolState :=
    { terminalsById := mapSet s.terminalsById m.id m
      terminalsByShell :=
        match m.shellType with
        | some k => mapSet s.terminalsByShell k m.id
        | none => s.terminalsByShell
      terminalToId := mapSet s.terminalToId m.terminal.handle m.id }
  (m, s', .showedTerminal m.terminal.handle :: applyMetadata m)

/-- `getOrCreateTerminal` from `src/terminal-pool.ts`.  The reuse branch reads the
object stored in `terminalsByShell`, which (by aliasing) is the `terminalsById`
entry under its id; its in-place mutations become a point update of
`terminalsById`. -/
def getOrCreateTerminal (s : PoolState) (shellType : ShellType)
    (options : Option CreateOptions) (now : Nat) (newId : String) (newHandle : Nat) :
    ManagedTerminal × PoolState × List PoolEvent :=
  match (s.terminalsByShell shellType).bind s.terminalsById with
  | some existing =>
      let e1 := { existing with lastUsedAt := now }
      let e2 :=
        if truthyStr (options.bind (·.comment)) then
          { e1 with comment := options.bind (·.comment) }
        else e1
      let e3 :=
        if truthyStr (options.bind (·.profileName)) then
          { e2 with profileName := options.bind (·.profileName) }
        else e2
      let s' := { s with terminalsById := mapSet s.terminalsById e3.id e3 }
      (e3, s', applyMetadata e3 ++ [.showedTerminal e3.terminal.handle])
  | none =>
      let shellExe := SHELL_EXECUTABLE_MAP shellType
      let terminal : Terminal :=
        { handle := newHandle
          name := "HDI " ++ toUpperJS (shellTypeName shellType)
          shellPath := some shellExe }
      let metadata : ManagedTerminal :=
        { id := newId
          terminal := terminal
          shellType := some shellType
          profileName := options.bind (·.profileName)
          comment := options.bind (·.comment)
          createdAt := now
          lastUsedAt := now }
      let r := registerManagedTerminal s metadata now
      (r.1, r.2.1, .createdTerminal shellExe :: r.2.2)

/-- `registerProfileTerminal` from `src/terminal-pool.ts`. -/
def registerProfileTerminal (s : PoolState) (terminal : Terminal) (profileName : String)
    (comment : Option String) (now : Nat) (newId : String) :
    ManagedTerminal × PoolState × List PoolEvent :=
  let shellType := detectShellTypeFromTerminal terminal (some profileName)
  let metadata : ManagedTerminal :=
    { id := newId
      terminal := terminal
      shellType := shellType
      profileName := some profileName
      comment := comment
      createdAt := now
      lastUsedAt := now }
  registerManagedTerminal s metadata now

/-- `updateTerminalComment` from `src/terminal-pool.ts`. -/
def updateTerminalComment (s : PoolState) (id : String) (comment : String) (now : Nat) :
    Bool × PoolState × List PoolEvent :=
  match s.terminalsById id with
  | none => (false, s, [])
  | some terminal =>
      let t' := { terminal with comment := some comment, lastUsedAt := now }
      (true, { s with terminalsById := mapSet s.terminalsById id t' }, applyMetadata t')

/-- `handleClosedTerminal` from `src/terminal-pool.ts`: resolve the closed handle to
an id, drop the `terminalsByShell` entry of its kind when it is still the tracked
entry, and remove the id from `terminalsById` and `terminalToId`. -/
def handleClosedTerminal (s : PoolState) (handle : Nat) : PoolState :=
  match s.terminalToId handle with
  | none => s
  | some terminalId =>
      let byShell' :=
        match s.terminalsById terminalId with
        | some metadata =>
            match metadata.shellType with
            | some k =>
                match s.terminalsByShell k with
                | some trackedId =>
                    if trackedId = metadata.id then mapDel s.terminalsByShell k
                    else s.terminalsByShell
                | none => s.terminalsByShell
            | none => s.terminalsByShell
        | none => s.terminalsByShell
      { terminalsById := mapDel s.terminalsById terminalId
        terminalsByShell := byShell'
        terminalToId := mapDel s.terminalToId handle }

/-- `dispose` from `src/terminal-pool.ts`: dispose every terminal, clear both
indices and every pending execution timer (`terminalToId` is a WeakMap and is not
cleared). -/
def disposePool (s : PoolState) : PoolState :=
  { terminalsById := fun _ => none
    terminalsByShell := fun _ => none
    terminalToId := s.terminalToId }

/-! ### The creation race (`openTerminalProfile` / `waitForNextTerminalOpen`) -/

/-- The error taxonomy of the pool, tagged with the thrown message text. -/
inductive PoolError where
  | cancelledAtStart (msg : String)
  | profileNotFound (msg : String)
  | sessionCreationFailed (msg : String)
  | executionTimeout (msg : String)
  | executionCancelled (msg : String)
deriving DecidableEq, Repr

/-- Liveness of the three resources allocated by `waitForNextTerminalOpen`:
the `onDidOpenTerminal` listener, the 3000 ms timer, and the
`onCancellationRequested` registration. -/
structure WaitResources where
  listenerLive : Bool
  timerLive : Bool
  cancelLive : Bool
deriving DecidableEq, Repr

/-- Resources right after `waitForNextTerminalOpen` subscribes: listener and timer
are live; the cancellation registration exists only when a token was passed. -/
def waitInitResources (tokenPresent : Bool) : WaitResources :=
  { listenerLive := true, timerLive := true, cancelLive := tokenPresent }

/-- `listener?.dispose()`. -/
def disposeListener (r : WaitResources) : WaitResources := { r with listenerLive := false }

/-- `cancel?.dispose()`. -/
def disposeCancel (r : WaitResources) : WaitResources := { r with cancelLive := false }

/-- `clearTimeout(timeout)`. -/
def clearTimer (r : WaitResources) : WaitResources := { r with timerLive := false }

/-- The 3000 ms timer has fired; it is no longer pending. -/
def timerFired (r : WaitResources) : WaitResources := { r with timerLive := false }

/-- The environment of one creation race: the host `onDidOpenTerminal` events in
time order, and the instant (if any) at which the cancellation token fires. -/
structure RaceEnv where
  events : List (Nat × Terminal)
  cancelAt : Option Nat
deriving DecidableEq, Repr

/-- The instant at which the bounded wait stops resolving events: the earlier of
cancellation and the 3000 ms timeout. -/
def waitStopTime (cancelAt : Option Nat) : Nat :=
  match cancelAt with
  | some c => min c 3000
  | none => 3000

/-- Whether the cancellation callback (rather than the timer) ends an eventless wait. -/
def cancelBeforeTimeout (cancelAt : Option Nat) : Bool :=
  match cancelAt with
  | some c => c < 3000
  | none => false

/-- Resolution of the promise of `waitForNextTerminalOpen`: the first
`onDidOpenTerminal` event whose terminal name includes the profile name wins if it
arrives before cancellation/timeout; otherwise the wait resolves `undefined`.
Each branch performs the dispose/clear calls written in the source. -/
def waitForNextTerminalOpenResolve (profileName : String) (env : RaceEnv)
    (tokenPresent : Bool) : Option Terminal × WaitResources :=
  let r0 := waitInitResources tokenPresent
  let eventlessOutcome : Option Terminal × WaitResources :=
    if cancelBeforeTimeout env.cancelAt then
      (none, clearTimer (disposeCancel (disposeListener r0)))
    else
      (none, disposeCancel (disposeListener (timerFired r0)))
  match env.events.find? (fun e => strContains e.2.name profileName) with
  | some (tm, t) =>
      if tm < waitStopTime env.cancelAt then
        (some t, clearTimer (disposeCancel (disposeListener r0)))
      else eventlessOutcome
  | none => eventlessOutcome

/-- The `dispose` closure returned by `waitForNextTerminalOpen`. -/
def waitForNextTerminalOpenDispose (tokenPresent : Bool) : WaitResources :=
  clearTimer (disposeCancel (disposeListener (waitInitResources tokenPresent)))

/-- `profileToUse`: the catalog match when present, else the requested name as-is. -/
def resolveProfileName (catalog : List ProfileEntry) (requested : String) : String :=
  match catalog.find? (fun entry => entry.name == requested) with
  | some entry => entry.name
  | none => requested

/-- The `ProfileNotFound` message: it names the requested profile and enumerates
every catalog entry (`profiles.map((entry) => entry.name).join(', ')`). -/
def profileNotFoundMessage (requested : String) (catalog : List ProfileEntry) : String :=
  "Profile '" ++ requested ++ "' not found. Available profiles: " ++
    String.intercalate ", " (catalog.map (fun entry => entry.name))

/-- The exhaustive inputs of one `openTerminalProfile` call. -/
structure OpenProfileArgs where
  profileName : String
  comment : Option String
  tokenPresent : Bool
  tokenCancelledAtStart : Bool
  catalog : List ProfileEntry
  cmdResult : Option Terminal
  env : RaceEnv
  now : Nat
  newId : String

/-- Result of `openTerminalProfile`: outcome, final pool state, external events,
and — when the race was started — the final liveness of its resources. -/
structure OpenResult where
  outcome : Except PoolError ManagedTerminal
  state : PoolState
  events : List PoolEvent
  waitRes : Option WaitResources

/-- `openTerminalProfile` from `src/terminal-pool.ts`: cancellation pre-check,
catalog lookup with `ProfileNotFound`, the creation race between the host command
(`cmdResult`) and the bounded wait, `SessionCreationFailed` when neither yields a
handle, and registration via `registerProfileTerminal` on success. -/
def openTerminalProfileModel (s : PoolState) (a : OpenProfileArgs) : OpenResult :=
  if a.tokenCancelledAtStart then
    { outcome := .error (.cancelledAtStart "Terminal opening cancelled by user")
      state := s, events := [], waitRes := none }
  else
    let profiles := a.catalog
    let mtch := profiles.find? (fun entry => entry.name == a.profileName)
    if mtch = none ∧ 0 < profiles.length then
      { outcome := .error (.profileNotFound (profileNotFoundMessage a.profileName profiles))
        state := s, events := [], waitRes := none }
    else
      let profileToUse := resolveProfileName a.catalog a.profileName
      match a.cmdResult with
      | some terminal =>
          let res := waitForNextTerminalOpenDispose a.tokenPresent
          let r := registerProfileTerminal s terminal profileToUse a.comment a.now a.newId
          { outcome := .ok r.1, state := r.2.1, events := r.2.2, waitRes := some res }
      | none =>
          let w := waitForNextTerminalOpenResolve profileToUse a.env a.tokenPresent
          match w.1 with
          | some terminal =>
              let r := registerProfileTerminal s terminal profileToUse a.comment a.now a.newId
              { outcome := .ok r.1, state := r.2.1, events := r.2.2, waitRes := some w.2 }
          | none =>
              { outcome := .error (.sessionCreationFailed
                  ("Command did not return terminal instance for profile: " ++ profileToUse))
                state := s, events := [], waitRes := some w.2 }

/-! ### The command executor (`executeCommand` / `executeCommandInternal` / `fallbackExecute`) -/

/-- The message text carried by a pool error. -/
def PoolError.message : PoolError → String
  | .cancelledAtStart m => m
  | .profileNotFound m => m
  | .sessionCreationFailed m => m
  | .executionTimeout m => m
  | .executionCancelled m => m

/-- Final resolution of one `executeCommand` promise. -/
inductive ExecOutcome where
  | success (exitCode : Int) (output : String)
  | failure (e : PoolError)
deriving DecidableEq, Repr

/-- The environment of one internal dispatch: whether the session exposes shell
integration, whether the structured submission throws, the state of the
cancellation token when the (single) check runs, and the structured completion
report — `some exitCode?` when the host reports completion of this submission
before the 30 s ceiling, `none` when it never does. -/
structure ExecArgs where
  hasShellIntegration : Bool
  submitThrows : Bool
  tokenCancelled : Bool
  completionEvent : Option (Option Int)
  command : String
  execId : String
deriving DecidableEq, Repr

/-- Observable behaviour of one internal dispatch: raw texts sent to the session,
whether the structured submission succeeded, whether `clearTimeout` ran on the
30 s timer, the `executions` keys still pending when dispatch returns, the delays
of the scheduled auxiliary timers, and the promise resolution. -/
structure ExecResult where
  sentTexts : List String
  integrationSubmitted : Bool
  mainTimerCleared : Bool
  pendingAfterDispatch : List String
  fallbackDelayMs : Option Nat
  cdDelayMs : Option Nat
  outcome : ExecOutcome
deriving DecidableEq, Repr

/-- The optimistic fallback resolution of `fallbackExecute`. -/
def fallbackOutput : String :=
  "Command sent (shell integration unavailable for detailed tracking)"

/-- `executeCommandInternal` (with `fallbackExecute`) from `src/terminal-pool.ts`.
The 30 s timer is started first; the structured path submits through shell
integration and resolves on the matching end-of-execution event (exit code
defaulting to 0); the fallback path — taken when integration is absent or the
submission throws — sends the raw command text and schedules an optimistic
1000 ms resolution with exit code 0.  The cancellation token is inspected once,
as the last statement of dispatch: if it is already signalled the 30 s timer is
cleared, the pending entry removed, and the promise rejected. -/
def executeCommandInternalModel (a : ExecArgs) : ExecResult :=
  let usesFallback := !a.hasShellIntegration || a.submitThrows
  let sentTexts := if usesFallback then [a.command] else []
  let integrationSubmitted := a.hasShellIntegration && !a.submitThrows
  let fallbackDelayMs := if usesFallback then some 1000 else none
  if a.tokenCancelled then
    { sentTexts := sentTexts
      integrationSubmitted := integrationSubmitted
      mainTimerCleared := true
      pendingAfterDispatch := []
      fallbackDelayMs := fallbackDelayMs
      cdDelayMs := none
      outcome := .failure (.executionCancelled "Execution cancelled") }
  else if usesFallback then
    { sentTexts := sentTexts
      integrationSubmitted := integrationSubmitted
      mainTimerCleared := true
      pendingAfterDispatch := [a.execId]
      fallbackDelayMs := fallbackDelayMs
      cdDelayMs := none
      outcome := .success 0 fallbackOutput }
  else
    match a.completionEvent with
    | some exitCode? =>
        let code := exitCode?.getD 0
        { sentTexts := sentTexts
          integrationSubmitted := integrationSubmitted
          mainTimerCleared := true
          pendingAfterDispatch := [a.execId]
          fallbackDelayMs := fallbackDelayMs
          cdDelayMs := none
          outcome := .success code ("Command completed with exit code " ++ toString code) }
    | none =>
        { sentTexts := sentTexts
          integrationSubmitted := integrationSubmitted
          mainTimerCleared := false
          pendingAfterDispatch := [a.execId]
          fallbackDelayMs := fallbackDelayMs
          cdDelayMs := none
          outcome := .failure (.executionTimeout
            ("Command execution timeout after 30s: " ++ a.command)) }

/-- `executeCommand` from `src/terminal-pool.ts`: bump `lastUsedAt` of the session
object (a point update of its `terminalsById` entry), send the `cd` instruction and
wait 200 ms when a working directory is given, then run the internal dispatch. -/
def executeCommandModel (s : PoolState) (managedTerminal : ManagedTerminal)
    (workingDir : Option String) (now : Nat) (a : ExecArgs) : ExecResult × PoolState :=
  let bumped := { managedTerminal with lastUsedAt := now }
  let s' := { s with terminalsById := mapSet s.terminalsById managedTerminal.id bumped }
  match workingDir with
  | some wd =>
      let r := executeCommandInternalModel a
      ({ r with sentTexts := ("cd \"" ++ wd ++ "\"") :: r.sentTexts, cdDelayMs := some 200 }, s')
  | none => (executeCommandInternalModel a, s')

/-! ### The executor tool boundary (`src/execute-in-terminal.ts`) -/

/-- Matching one of the guard words directly at the head of the text, followed —
when `needWs` — by at least one whitespace character (`word\s+`; with `needWs`
false the trailing `\s*` of the pattern is vacuous). -/
def matchWordWs : List Char → Bool → List Char → Bool
  | [], needWs, l =>
      if needWs then
        match l with
        | c :: _ => isJsSpace c
        | [] => false
      else true
  | _ :: _, _, [] => false
  | w :: ws, needWs, c :: rest => c = w && matchWordWs ws needWs rest

/-- `\s*word` (plus the `needWs` trailing whitespace requirement) after a
separator: skip the whitespace run, then match the word. -/
def skipWsThenWord (word : List Char) (needWs : Bool) : List Char → Bool
  | [] => matchWordWs word needWs []
  | c :: rest =>
      if isJsSpace c then skipWsThenWord word needWs rest
      else matchWordWs word needWs (c :: rest)

/-- The search `/[;&|]\s*word.../` over the whole text: some position holds a
separator followed by optional whitespace and the word. -/
def containsSepWord (word : List Char) (needWs : Bool) : List Char → Bool
  | [] => false
  | c :: rest =>
      ((c = ';' || c = '&' || c = '|') && skipWsThenWord word needWs rest) ||
        containsSepWord word needWs rest

/-- `checkForDangerousCommands` from `src/execute-in-terminal.ts`: the three
regex pairs over the trimmed, lower-cased command (`/^exit\s*/`,
`/[;&|]\s*exit\s*/`, `/^kill\s+/`, `/[;&|]\s*kill\s+/`, `/^taskkill\s+/`,
`/[;&|]\s*taskkill\s+/`), in that order. -/
def checkForDangerousCommands (command : String) : Option String :=
  let trimmed := (toLowerJS (trimJS command)).data
  if matchWordWs "exit".data false trimmed || containsSepWord "exit".data false trimmed then
    some "exit command is not permitted (prevents VS Code termination)"
  else if matchWordWs "kill".data true trimmed || containsSepWord "kill".data true trimmed then
    some "kill command is not permitted (prevents process termination)"
  else if matchWordWs "taskkill".data true trimmed ||
      containsSepWord "taskkill".data true trimmed then
    some "taskkill command is not permitted (prevents VS Code termination)"
  else none

/-- `ExecuteInTerminalInput` from `src/types.ts`; `none` is JavaScript
`undefined` (the `typeof` checks of `validateInput` are vacuous in the typed
embedding). -/
structure ExecuteInTerminalInput where
  command : Option String
  terminal_id : Option String
  shell_type : Option String
  working_dir : Option String
  show_terminal : Option Bool
  comment : Option String
deriving DecidableEq, Repr

/-- The `validShells` list of `validateInput`. -/
def validShells : List String := ["powershell", "gitbash", "wsl", "ubuntu", "cmd"]

/-- `validateInput` from `src/execute-in-terminal.ts` (empty strings are falsy,
so they hit the `required` messages; the final step is the dangerous-command
guard). -/
def validateInput (input : ExecuteInTerminalInput) : Option String :=
  match input.command with
  | none => some "command is required and must be a string"
  | some cmd =>
    if cmd = "" then some "command is required and must be a string"
    else if trimJS cmd = "" then some "command cannot be empty"
    else
      match input.terminal_id with
      | none => some "terminal_id is required and must be a string"
      | some tid =>
        if tid = "" then some "terminal_id is required and must be a string"
        else if trimJS tid = "" then some "terminal_id cannot be empty"
        else if (match input.shell_type with
                 | some st => !(st = "") && !(validShells.contains st)
                 | none => false) then
          some ("shell_type must be one of: " ++ String.intercalate ", " validShells)
        else checkForDangerousCommands cmd

/-- Result of one `ExecuteInTerminalTool.invoke` call: the tool result or thrown
message, the pool state afterwards, and the external events performed. -/
structure InvokeResult where
  result : Except String String
  state : PoolState
  events : List PoolEvent

/-- `ExecuteInTerminalTool.invoke` from `src/execute-in-terminal.ts`: input
validation first (pool untouched on failure), then the cancellation pre-check,
then resolution of the terminal id against the pool, optional comment update,
optional `show`, execution, and message formatting; errors raised inside the
`try` block are re-thrown with the `Failed to execute command` prefix. -/
def invokeModel (pool : PoolState) (input : ExecuteInTerminalInput)
    (tokenCancelled : Bool) (now : Nat) (exec : ExecArgs) : InvokeResult :=
  match validateInput input with
  | some err => { result := .error err, state := pool, events := [] }
  | none =>
    match input.command, input.terminal_id with
    | some cmd0, some tid0 =>
      let command := trimJS cmd0
      let workingDir := input.working_dir.map trimJS
      let showTerminal := !(input.show_terminal = some false)
      let terminalId := trimJS tid0
      let comment := input.comment.map trimJS
      let shellLabel := match input.shell_type with
        | some st => st
        | none => "unknown"
      if tokenCancelled then
        { result := .error "Terminal command execution cancelled by user"
          state := pool, events := [] }
      else if terminalId = "" then
        { result := .error ("Failed to execute command in " ++ shellLabel ++ ": " ++
            "terminal_id is required when executing commands in a terminal. Open a profile first to get the ID.")
          state := pool, events := [] }
      else
        match pool.terminalsById terminalId with
        | none =>
          { result := .error ("Failed to execute command in " ++ shellLabel ++ ": " ++
              "The terminal with ID " ++ terminalId ++
              " appears to have been disposed. Please create a new one using the haiberdyn_open_terminal_profile tool; the terminal pool will register it again.")
            state := pool, events := [] }
        | some targetTerminal =>
          let step1 :=
            if truthyStr comment then
              updateTerminalComment pool targetTerminal.id (comment.getD "") now
            else (true, pool, [])
          let target2 :=
            if truthyStr comment then
              { targetTerminal with comment := comment, lastUsedAt := now }
            else targetTerminal
          let showEvents :=
            if showTerminal then [PoolEvent.showedTerminal target2.terminal.handle] else []
          let r := executeCommandModel step1.2.1 target2 workingDir now
            { exec with command := command }
          let sentEvents := r.1.sentTexts.map (PoolEvent.sentText target2.terminal.handle)
          let allEvents := step1.2.2 ++ showEvents ++ sentEvents
          match r.1.outcome with
          | .success exitCode _ =>
            let metadataInfo := "Terminal ID: " ++ target2.id ++
              (if truthyStr target2.comment then " (" ++ (target2.comment.getD "") ++ ")" else "")
            let resolvedShell := match input.shell_type with
              | some st => st
              | none =>
                match target2.shellType with
                | some k => shellTypeName k
                | none => "unknown"
            let message :=
              if exitCode = 0 then
                "✅ Command executed successfully in " ++ resolvedShell ++
                  "\nExit code: " ++ toString exitCode ++ "\n" ++ metadataInfo
              else
                "⚠️ Command failed in " ++ resolvedShell ++
                  "\nExit code: " ++ toString exitCode ++ "\n" ++ metadataInfo
            { result := .ok message, state := r.2, events := allEvents }
          | .failure e =>
            { result := .error ("Failed to execute command in " ++ shellLabel ++ ": " ++
                e.message)
              state := r.2, events := allEvents }
    | _, _ =>
      -- unreachable: `validateInput` returned `none`, so both fields are present
      { result := .error "", state := pool, events := [] }

/-! ### Specification-side definitions used to state the claims -/

/-- The shell-kind inference expressed as the spec describes it: an ordered
(predicate, kind) rule table over the lower-cased launch path and profile name. -/
def shellRuleTable : List ((String → String → Bool) × ShellType) :=
  [ (fun path profile => strContains path "pwsh" || strContains path "powershell" ||
      strContains profile "powershell", .powershell),
    (fun path profile => strContains path "cmd.exe" || strContains profile "command prompt",
      .cmd),
    (fun path profile => strContains path "bash.exe" || strContains profile "git bash",
      .gitbash),
    (fun path profile => strContains path "wsl.exe" || strContains profile "wsl", .wsl),
    (fun _ profile => strContains profile "ubuntu", .ubuntu) ]

/-- First-match-wins evaluation of a rule table; no match leaves the kind unknown. -/
def firstMatchRule : List ((String → String → Bool) × ShellType) → String → String →
    Option ShellType
  | [], _, _ => none
  | r :: rest, path, profile =>
      if r.1 path profile then some r.2 else firstMatchRule rest path profile

/-- A value is free of unescaped double quotes: reading left to right, a backslash
escapes the character after it, and no bare `"` remains. -/
def okQuotes : List Char → Bool
  | [] => true
  | c :: rest =>
    if c = '\\' then
      match rest with
      | _ :: rest2 => okQuotes rest2
      | [] => true
    else if c = '"' then false
    else okQuotes rest

/-- The combined effect of the two escaping stages of `quoteForShell`, per
character: a backslash becomes two, a double quote becomes backslash-quote,
anything else is untouched. -/
def escBothChar (c : Char) : List Char :=
  if c = '\\' then ['\\', '\\'] else if c = '"' then ['\\', '"'] else [c]

/-- All three resources of one creation-race wait are dead: the listener and the
cancellation registration are disposed and the timer is cleared or has fired. -/
def WaitResources.allDead (r : WaitResources) : Prop :=
  r.listenerLive = false ∧ r.timerLive = false ∧ r.cancelLive = false

/-- The registry invariant of the spec: every id stored in `terminalsById` keys
its own record, and every entry of `terminalsByShell` dereferences to a live
`terminalsById` record of exactly that shell kind. -/
def PoolInv (s : PoolState) : Prop :=
  (∀ id m, s.terminalsById id = some m → m.id = id) ∧
  (∀ k id, s.terminalsByShell k = some id →
    ∃ m, s.terminalsById id = some m ∧ m.shellType = some k)

/-- The disposal contract of the spec, stated of a pool state: resolving a closed
handle removes its id from `terminalsById`, removes it from `terminalsByShell`
exactly when it is still the current entry for its kind, and leaves every other
kind's entry untouched. -/
def DisposalSpec (s : PoolState) : Prop :=
  ∀ h id, s.terminalToId h = some id →
    ((handleClosedTerminal s h).terminalsById id = none) ∧
    (∀ k, s.terminalsByShell k = some id →
      (handleClosedTerminal s h).terminalsByShell k = none) ∧
    (∀ k j, s.terminalsByShell k = some j → j ≠ id →
      (handleClosedTerminal s h).terminalsByShell k = some j)

/-- One mutation of the pool's indices, by any of the operations of the class.
Fresh ids delivered by `randomUUID` are modelled by the freshness side
conditions. -/
inductive PoolStep : PoolState → PoolState → Prop where
  | create (s : PoolState) (k : ShellType) (opts : Option CreateOptions) (now : Nat)
      (newId : String) (newHandle : Nat) (hfresh : s.terminalsById newId = none) :
      PoolStep s (getOrCreateTerminal s k opts now newId newHandle).2.1
  | regProfile (s : PoolState) (t : Terminal) (profileName : String)
      (comment : Option String) (now : Nat) (newId : String)
      (hfresh : s.terminalsById newId = none) :
      PoolStep s (registerProfileTerminal s t profileName comment now newId).2.1
  | update (s : PoolState) (id comment : String) (now : Nat) :
      PoolStep s (updateTerminalComment s id comment now).2.1
  | close (s : PoolState) (h : Nat) : PoolStep s (handleClosedTerminal s h)
  | dispose (s : PoolState) : PoolStep s (disposePool s)

/-- The pool states reachable from a freshly constructed pool. -/
inductive PoolReachable : PoolState → Prop where
  | init : PoolReachable initialPoolState
  | step {s s' : PoolState} : PoolReachable s → PoolStep s s' → PoolReachable s'

/-- The word `w` stands as a complete token at the front of `rest`-continued text:
nothing follows, or whitespace follows.  (Used to state the claim's notion of a
command *invocation*.) -/
def TokenEnd (rest : List Char) : Prop :=
  rest = [] ∨ ∃ c rest2, rest = c :: rest2 ∧ isJsSpace c = true

/-- Claim-side reading of the guard: the text starts with the word as a complete
invocation token. -/
def ClaimStartsInvoc (t w : List Char) : Prop :=
  ∃ rest, t = w ++ rest ∧ TokenEnd rest

/-- Claim-side reading of the guard: the word occurs as a complete invocation token
after a `;`, `&` or `|` separator and optional whitespace. -/
def ClaimSepInvoc (t w : List Char) : Prop :=
  ∃ pre sep sp rest, t = pre ++ sep :: (sp ++ (w ++ rest)) ∧
    (sep = ';' ∨ sep = '&' ∨ sep = '|') ∧
    (∀ c ∈ sp, isJsSpace c = true) ∧ TokenEnd rest

/-- The dangerous-command predicate exactly as claim C10 words it: the trimmed,
lower-cased text starts with an `exit`, `kill` or `taskkill` invocation, or
contains one after a separator. -/
def ClaimC10Danger (cmd : String) : Prop :=
  let t := (toLowerJS (trimJS cmd)).data
  ClaimStartsInvoc t "exit".data ∨ ClaimSepInvoc t "exit".data ∨
    ClaimStartsInvoc t "kill".data ∨ ClaimSepInvoc t "kill".data ∨
    ClaimStartsInvoc t "taskkill".data ∨ ClaimSepInvoc t "taskkill".data

/-- The word `w` heads the text and — when `needWs` — at least one whitespace
character follows it (`exit` needs no trailing whitespace; `kill` and `taskkill`
require one). -/
def AmendedStartsTok (t w : List Char) (needWs : Bool) : Prop :=
  ∃ rest, t = w ++ rest ∧
    (needWs = true → ∃ c rest2, rest = c :: rest2 ∧ isJsSpace c = true)

/-- The word `w` occurs after a separator and optional whitespace, with the same
trailing-whitespace requirement. -/
def AmendedSepTok (t w : List Char) (needWs : Bool) : Prop :=
  ∃ pre sep sp rest, t = pre ++ sep :: (sp ++ (w ++ rest)) ∧
    (sep = ';' ∨ sep = '&' ∨ sep = '|') ∧
    (∀ c ∈ sp, isJsSpace c = true) ∧
    (needWs = true → ∃ c rest2, rest = c :: rest2 ∧ isJsSpace c = true)

/-- The dangerous-command predicate the code actually implements, described
declaratively: `exit` anywhere at the start or after a separator with any
continuation; `kill` and `taskkill` only when followed by whitespace. -/
def AmendedC10Danger (cmd : String) : Prop :=
  let t := (toLowerJS (trimJS cmd)).data
  AmendedStartsTok t "exit".data false ∨ AmendedSepTok t "exit".data false ∨
    AmendedStartsTok t "kill".data true ∨ AmendedSepTok t "kill".data true ∨
    AmendedStartsTok t "taskkill".data true ∨ AmendedSepTok t "taskkill".data true

/-! ### Concrete instances used by counterexamples and witnesses -/

/-- A catalog holding exactly one entry, named WSL. -/
def sampleCatalog : List ProfileEntry := [{ name := "WSL", platform := .windows }]

/-- A terminal handle as delivered by the creation command for the WSL profile. -/
def sampleTerminal : Terminal := { handle := 1, name := "WSL", shellPath := none }

/-- Opening profile WSL with the creation command returning a handle at once. -/
def sampleOpenArgs : OpenProfileArgs :=
  { profileName := "WSL", comment := none, tokenPresent := false
    tokenCancelledAtStart := false, catalog := sampleCatalog
    cmdResult := some sampleTerminal, env := { events := [], cancelAt := none }
    now := 5, newId := "t1" }

/-- Opening the lower-cased name wsl against the same catalog. -/
def sampleOpenArgsLower : OpenProfileArgs :=
  { sampleOpenArgs with profileName := "wsl" }

/-- The total-failure race: the command returns nothing and no event ever arrives. -/
def sampleOpenArgsFailed : OpenProfileArgs :=
  { sampleOpenArgs with cmdResult := none }

/-- The pool after one shell-kind creation from the empty pool. -/
def samplePoolState1 : PoolState :=
  (getOrCreateTerminal initialPoolState .wsl none 0 "t1" 1).2.1

/-- A dispatch with no shell integration and the token already signalled. -/
def sampleExecCancelled : ExecArgs :=
  { hasShellIntegration := false, submitThrows := false, tokenCancelled := true
    completionEvent := none, command := "echo hi", execId := "exec_1" }

/-- A dispatch whose structured submission throws, with a live token. -/
def sampleExecThrows : ExecArgs :=
  { hasShellIntegration := true, submitThrows := true, tokenCancelled := false
    completionEvent := none, command := "echo hi", execId := "exec_1" }

/-! ## Helper lemmas -/

theorem mapSet_same {α β : Type} [DecidableEq α] (f : α → Option β) (a : α) (b : β) :
    mapSet f a b a = some b := by
  simp [mapSet]

theorem mapSet_other {α β : Type} [DecidableEq α] (f : α → Option β) (a : α) (b : β)
    (x : α) (h : x ≠ a) : mapSet f a b x = f x := by
  simp [mapSet, h]

theorem mapDel_same {α β : Type} [DecidableEq α] (f : α → Option β) (a : α) :
    mapDel f a a = none := by
  simp [mapDel]

theorem mapDel_other {α β : Type} [DecidableEq α] (f : α → Option β) (a : α)
    (x : α) (h : x ≠ a) : mapDel f a x = f x := by
  simp [mapDel, h]

theorem createdTerminal_not_in_applyMetadata (m : ManagedTerminal) (p : String) :
    PoolEvent.createdTerminal p ∉ applyMetadata m := by
  unfold applyMetadata setPromptEnvVariables
  cases getShellFlavor m <;> simp

/-- Reuse branch of `getOrCreateTerminal`, characterized: same id, untouched
`terminalsByShell` and `terminalToId`, a point update of `terminalsById`, no
creation event. -/
theorem getOrCreateTerminal_reuse (s : PoolState) (k : ShellType)
    (o : Option CreateOptions) (now : Nat) (newId : String) (newHandle : Nat)
    (ex : ManagedTerminal) (hl : (s.terminalsByShell k).bind s.terminalsById = some ex) :
    ((getOrCreateTerminal s k o now newId newHandle).1.id = ex.id) ∧
    ((getOrCreateTerminal s k o now newId newHandle).2.1.terminalsByShell =
      s.terminalsByShell) ∧
    ((getOrCreateTerminal s k o now newId newHandle).2.1.terminalToId = s.terminalToId) ∧
    (∃ e3 : ManagedTerminal, (getOrCreateTerminal s k o now newId newHandle).1 = e3 ∧
      e3.id = ex.id ∧ e3.shellType = ex.shellType ∧
      (getOrCreateTerminal s k o now newId newHandle).2.1.terminalsById =
        mapSet s.terminalsById ex.id e3) ∧
    (∀ p, PoolEvent.createdTerminal p ∉ (getOrCreateTerminal s k o now newId newHandle).2.2) := by
  unfold getOrCreateTerminal
  rw [hl]
  refine ⟨?_, rfl, rfl, ?_, fun p hmem => ?_⟩
  · rcases Bool.eq_false_or_eq_true (truthyStr (o.bind fun x => x.comment)) with hc | hc <;>
      rcases Bool.eq_false_or_eq_true (truthyStr (o.bind fun x => x.profileName)) with hp | hp <;>
      simp [hc, hp]
  · rcases Bool.eq_false_or_eq_true (truthyStr (o.bind fun x => x.comment)) with hc | hc <;>
      rcases Bool.eq_false_or_eq_true (truthyStr (o.bind fun x => x.profileName)) with hp | hp <;>
      simp only [hc, hp, Bool.false_eq_true, if_false, if_true, eq_self_iff_true] <;>
      exact ⟨_, rfl, rfl, rfl, rfl⟩
  · rcases List.mem_append.mp hmem with hmem2 | hmem2
    · exact createdTerminal_not_in_applyMetadata _ p hmem2
    · simp at hmem2

/-- Fresh branch of `getOrCreateTerminal`, characterized: the new id keys the new
record, the shell-kind entry is replaced, and the shell type is the requested
kind. -/
theorem getOrCreateTerminal_fresh (s : PoolState) (k : ShellType)
    (o : Option CreateOptions) (now : Nat) (newId : String) (newHandle : Nat)
    (hl : (s.terminalsByShell k).bind s.terminalsById = none) :
    ((getOrCreateTerminal s k o now newId newHandle).1.id = newId) ∧
    ((getOrCreateTerminal s k o now newId newHandle).1.shellType = some k) ∧
    ((getOrCreateTerminal s k o now newId newHandle).2.1.terminalsByShell =
      mapSet s.terminalsByShell k newId) ∧
    ((getOrCreateTerminal s k o now newId newHandle).2.1.terminalsById =
      mapSet s.terminalsById newId (getOrCreateTerminal s k o now newId newHandle).1) ∧
    ((getOrCreateTerminal s k o now newId newHandle).2.1.terminalToId =
      mapSet s.terminalToId newHandle newId) := by
  unfold getOrCreateTerminal registerManagedTerminal
  rw [hl]
  exact ⟨rfl, rfl, rfl, rfl, rfl⟩

/-! ## Theorems -/

/-- C7: shell-kind inference is an ordered first-match-wins rule table over the
handle's launch path and the profile name, in the keyword order powershell-like,
cmd-like, git-bash, wsl, ubuntu-named; no match leaves the kind unknown, and a
profile name matching both a wsl keyword and an ubuntu keyword infers wsl. -/
theorem c7_shell_inference_rule_table :
    (∀ t p, detectShellTypeFromTerminal t p =
      firstMatchRule shellRuleTable (getShellPathFromOptions t)
        (match p with
         | some s => toLowerJS s
         | none => "")) ∧
    detectShellTypeFromTerminal { handle := 0, name := "", shellPath := none }
      (some "Ubuntu WSL") = some .wsl ∧
    detectShellTypeFromTerminal { handle := 0, name := "", shellPath := none }
      (some "Ubuntu") = some .ubuntu ∧
    detectShellTypeFromTerminal { handle := 0, name := "", shellPath := none }
      (some "zsh") = none :=
  ⟨fun _ _ => rfl, by decide, by decide, by decide⟩

/-- C2 counterexample: opening the WSL profile (catalog hit, handle returned by
the creation command) *does* modify `terminalsByShell` — the inferred wsl kind is
registered, although the claim says profile-based creation never touches it. -/
theorem c2_counterexample :
    initialPoolState.terminalsByShell .wsl = none ∧
    (openTerminalProfileModel initialPoolState sampleOpenArgs).state.terminalsByShell .wsl =
      some "t1" :=
  ⟨rfl, by decide⟩

/-- C2 amended: profile-based creation leaves `terminalsByShell` unchanged exactly
when shell-kind inference returns unknown; when a kind is inferred, registration
replaces that kind's entry with the new session's id, just as shell-kind-based
creation does. -/
theorem c2_profile_registration_byShell (s : PoolState) (t : Terminal)
    (pn : String) (c : Option String) (now : Nat) (newId : String) :
    (detectShellTypeFromTerminal t (some pn) = none →
      (registerProfileTerminal s t pn c now newId).2.1.terminalsByShell =
        s.terminalsByShell) ∧
    (∀ k, detectShellTypeFromTerminal t (some pn) = some k →
      (registerProfileTerminal s t pn c now newId).2.1.terminalsByShell =
        mapSet s.terminalsByShell k newId) := by
  unfold registerProfileTerminal registerManagedTerminal
  constructor
  · intro h; simp [h]
  · intro k h; simp [h]

/-- C2 amended, witnessed at the counterexample's inputs: registering the WSL
profile terminal replaces the wsl entry of `terminalsByShell`. -/
theorem c2_profile_registration_byShell_witness :
    (registerProfileTerminal initialPoolState sampleTerminal "WSL" none 5 "t1").2.1.terminalsByShell =
      mapSet initialPoolState.terminalsByShell .wsl "t1" :=
  (c2_profile_registration_byShell initialPoolState sampleTerminal "WSL" none 5 "t1").2
    .wsl (by decide)

/-- C9: two successive `getOrCreateTerminal` calls for the same shell kind, with
no disposal between them, return a session with the same id; the second call
performs no external creation call and leaves `terminalsByShell` unchanged. -/
theorem c9_reuse_same_id (s : PoolState) (k : ShellType)
    (o1 o2 : Option CreateOptions) (n1 n2 : Nat) (i1 i2 : String) (h1 h2 : Nat) :
    ((getOrCreateTerminal (getOrCreateTerminal s k o1 n1 i1 h1).2.1 k o2 n2 i2 h2).1.id =
      (getOrCreateTerminal s k o1 n1 i1 h1).1.id) ∧
    (∀ p, PoolEvent.createdTerminal p ∉
      (getOrCreateTerminal (getOrCreateTerminal s k o1 n1 i1 h1).2.1 k o2 n2 i2 h2).2.2) ∧
    ((getOrCreateTerminal (getOrCreateTerminal s k o1 n1 i1 h1).2.1 k o2 n2 i2 h2).2.1.terminalsByShell =
      (getOrCreateTerminal s k o1 n1 i1 h1).2.1.terminalsByShell) := by
  by_cases hfirst : ∃ ex, (s.terminalsByShell k).bind s.terminalsById = some ex
  · -- the first call reuses an existing entry; so does the second
    obtain ⟨ex, hl⟩ := hfirst
    obtain ⟨hid1, hshell1, -, ⟨e3, -, he3id, -, hby1⟩, -⟩ :=
      getOrCreateTerminal_reuse s k o1 n1 i1 h1 ex hl
    obtain ⟨id0, hs0, hb0⟩ : ∃ id0, s.terminalsByShell k = some id0 ∧
        s.terminalsById id0 = some ex := by
      rcases hsk : s.terminalsByShell k with _ | id0
      · rw [hsk] at hl; cases hl
      · rw [hsk] at hl; exact ⟨id0, rfl, hl⟩
    have hl2 : ((getOrCreateTerminal s k o1 n1 i1 h1).2.1.terminalsByShell k).bind
        (getOrCreateTerminal s k o1 n1 i1 h1).2.1.terminalsById =
        some (if id0 = ex.id then e3 else ex) := by
      rw [hshell1, hs0, hby1]
      by_cases hcase : id0 = ex.id
      · simp [hcase, mapSet_same]
      · rw [Option.some_bind, mapSet_other _ _ _ _ hcase, hb0, if_neg hcase]
    obtain ⟨hid2, hshell2, -, -, hnoc2⟩ :=
      getOrCreateTerminal_reuse (getOrCreateTerminal s k o1 n1 i1 h1).2.1 k o2 n2 i2 h2 _ hl2
    refine ⟨?_, hnoc2, hshell2⟩
    rw [hid1, hid2]
    by_cases hcase : id0 = ex.id <;> simp [hcase, he3id]
  · -- the first call creates a fresh session, which the second call reuses
    have hl : (s.terminalsByShell k).bind s.terminalsById = none := by
      rcases hv : (s.terminalsByShell k).bind s.terminalsById with _ | ex
      · rfl
      · exact absurd ⟨ex, hv⟩ hfirst
    obtain ⟨hid1, -, hshell1, hby1, -⟩ := getOrCreateTerminal_fresh s k o1 n1 i1 h1 hl
    have hl2 : ((getOrCreateTerminal s k o1 n1 i1 h1).2.1.terminalsByShell k).bind
        (getOrCreateTerminal s k o1 n1 i1 h1).2.1.terminalsById =
        some (getOrCreateTerminal s k o1 n1 i1 h1).1 := by
      rw [hshell1, hby1, mapSet_same, Option.some_bind, mapSet_same]
    obtain ⟨hid2, hshell2, -, -, hnoc2⟩ :=
      getOrCreateTerminal_reuse (getOrCreateTerminal s k o1 n1 i1 h1).2.1 k o2 n2 i2 h2 _ hl2
    exact ⟨hid2, hnoc2, hshell2⟩

/-- C4: when the session has no structured completion signalling, or the
structured submission throws, and the token is not cancelled, the call sends the
raw command text, schedules the fixed 1000 ms settle delay, and resolves
successfully with exit code 0 and the unverified-status message — the submission
exception never fails the call. -/
theorem c4_fallback_optimistic_success (a : ExecArgs)
    (hf : a.hasShellIntegration = false ∨ a.submitThrows = true)
    (hc : a.tokenCancelled = false) :
    (executeCommandInternalModel a).outcome = .success 0 fallbackOutput ∧
    (executeCommandInternalModel a).sentTexts = [a.command] ∧
    (executeCommandInternalModel a).fallbackDelayMs = some 1000 ∧
    (executeCommandInternalModel a).mainTimerCleared = true := by
  unfold executeCommandInternalModel
  rcases hf with h | h <;> simp [h, hc]

/-- C4 witness: a throwing structured submission still resolves optimistically. -/
theorem c4_fallback_optimistic_success_witness :
    (executeCommandInternalModel sampleExecThrows).outcome = .success 0 fallbackOutput ∧
    (executeCommandInternalModel sampleExecThrows).sentTexts = [sampleExecThrows.command] ∧
    (executeCommandInternalModel sampleExecThrows).fallbackDelayMs = some 1000 ∧
    (executeCommandInternalModel sampleExecThrows).mainTimerCleared = true :=
  c4_fallback_optimistic_success sampleExecThrows (Or.inr rfl) rfl

/-- C3 counterexample: with the token already signalled and no shell integration,
dispatch still sends the command to the session before rejecting — the
cancellation check runs after submission, not before, contradicting the claim
that the command is not submitted. -/
theorem c3_counterexample :
    (executeCommandInternalModel sampleExecCancelled).outcome =
      .failure (.executionCancelled "Execution cancelled") ∧
    (executeCommandInternalModel sampleExecCancelled).sentTexts = ["echo hi"] ∧
    (executeCommandInternalModel sampleExecCancelled).sentTexts ≠ [] :=
  ⟨rfl, rfl, by decide⟩

/-- C3 amended: cancellation is checked exactly once, at the *end* of internal
dispatch, after the command has been submitted: if the token is already signalled
there, the 30 s timer is cleared, the pending entry is removed, and the call
fails with `ExecutionCancelled`; by then the fallback path has already sent the
raw text, and the structured path has already submitted. -/
theorem c3_cancellation_checked_after_submission (a : ExecArgs)
    (h : a.tokenCancelled = true) :
    (executeCommandInternalModel a).outcome =
      .failure (.executionCancelled "Execution cancelled") ∧
    (executeCommandInternalModel a).mainTimerCleared = true ∧
    (executeCommandInternalModel a).pendingAfterDispatch = [] ∧
    ((a.hasShellIntegration = false ∨ a.submitThrows = true) →
      (executeCommandInternalModel a).sentTexts = [a.command]) ∧
    (a.hasShellIntegration = true → a.submitThrows = false →
      (executeCommandInternalModel a).integrationSubmitted = true) := by
  unfold executeCommandInternalModel
  rw [h]
  refine ⟨rfl, rfl, rfl, ?_, ?_⟩
  · rintro (hf | hf) <;> simp [hf]
  · intro h1 h2; simp [h1, h2]

/-- C3 amended witness, at the counterexample's inputs. -/
theorem c3_cancellation_checked_after_submission_witness :
    (executeCommandInternalModel sampleExecCancelled).outcome =
      .failure (.executionCancelled "Execution cancelled") ∧
    (executeCommandInternalModel sampleExecCancelled).mainTimerCleared = true ∧
    (executeCommandInternalModel sampleExecCancelled).pendingAfterDispatch = [] ∧
    ((sampleExecCancelled.hasShellIntegration = false ∨
        sampleExecCancelled.submitThrows = true) →
      (executeCommandInternalModel sampleExecCancelled).sentTexts =
        [sampleExecCancelled.command]) ∧
    (sampleExecCancelled.hasShellIntegration = true →
      sampleExecCancelled.submitThrows = false →
      (executeCommandInternalModel sampleExecCancelled).integrationSubmitted = true) :=
  c3_cancellation_checked_after_submission sampleExecCancelled rfl

/-- C5: with the start-of-call cancellation not signalled, `openTerminalProfile`
fails with `ProfileNotFound` iff the catalog is non-empty and contains no exact
case-sensitive match for the requested name; the failure message enumerates every
available profile name; an empty catalog never produces `ProfileNotFound` and the
requested name is resolved to itself. -/
theorem c5_profile_not_found_iff (s : PoolState) (a : OpenProfileArgs)
    (h : a.tokenCancelledAtStart = false) :
    ((∃ msg, (openTerminalProfileModel s a).outcome = .error (.profileNotFound msg)) ↔
      (a.catalog ≠ [] ∧ ∀ e ∈ a.catalog, e.name ≠ a.profileName)) ∧
    (∀ msg, (openTerminalProfileModel s a).outcome = .error (.profileNotFound msg) →
      msg = profileNotFoundMessage a.profileName a.catalog) ∧
    (a.catalog = [] → resolveProfileName a.catalog a.profileName = a.profileName) := by
  have h3 : a.catalog = [] → resolveProfileName a.catalog a.profileName = a.profileName := by
    intro hc
    simp [resolveProfileName, hc]
  unfold openTerminalProfileModel
  rw [h]
  simp only [Bool.false_eq_true, if_false]
  by_cases hpf : (a.catalog.find? (fun entry => entry.name == a.profileName)) = none ∧
      0 < a.catalog.length
  · refine ⟨?_, ?_, h3⟩
    · constructor
      · intro _
        refine ⟨?_, ?_⟩
        · intro hnil
          rw [hnil] at hpf
          simp at hpf
        · intro e hmem
          have := List.find?_eq_none.mp hpf.1 e hmem
          simpa using this
      · intro _
        exact ⟨_, by rw [if_pos hpf]⟩
    · intro msg hmsg
      rw [if_pos hpf] at hmsg
      simp only [Except.error.injEq, PoolError.profileNotFound.injEq] at hmsg
      exact hmsg.symm
  · refine ⟨?_, ?_, h3⟩
    · constructor
      · rintro ⟨msg, hmsg⟩
        simp only [hpf, if_false, if_neg] at hmsg
        rcases hcr : a.cmdResult with _ | t
        · rw [hcr] at hmsg
          rcases hw : (waitForNextTerminalOpenResolve
              (resolveProfileName a.catalog a.profileName) a.env a.tokenPresent).1 with _ | t2
          · rw [hw] at hmsg
            cases hmsg
          · rw [hw] at hmsg
            cases hmsg
        · rw [hcr] at hmsg
          cases hmsg
      · rintro ⟨hne, hall⟩
        exfalso
        apply hpf
        refine ⟨List.find?_eq_none.mpr ?_, List.length_pos.mpr hne⟩
        intro e hmem
        simpa using hall e hmem
    · intro msg hmsg
      exfalso
      simp only [hpf, if_false, if_neg] at hmsg
      rcases hcr : a.cmdResult with _ | t
      · rw [hcr] at hmsg
        rcases hw : (waitForNextTerminalOpenResolve
            (resolveProfileName a.catalog a.profileName) a.env a.tokenPresent).1 with _ | t2
        · rw [hw] at hmsg
          cases hmsg
        · rw [hw] at hmsg
          cases hmsg
      · rw [hcr] at hmsg
        cases hmsg

/-- C5 witness: against the one-entry WSL catalog, opening wsl fails with
`ProfileNotFound`. -/
theorem c5_profile_not_found_iff_witness :
    ∃ msg, (openTerminalProfileModel initialPoolState sampleOpenArgsLower).outcome =
      .error (.profileNotFound msg) :=
  (c5_profile_not_found_iff initialPoolState sampleOpenArgsLower rfl).1.mpr
    ⟨by decide, by decide⟩

/-- An eventless (or too-late-event) bounded wait resolves `undefined` and leaves
all three race resources dead, whichever of the timer and the cancellation
callback ends it. -/
theorem waitResolve_none_allDead (p : String) (env : RaceEnv) (tp : Bool)
    (h : ∀ e ∈ env.events, strContains e.2.name p = true →
      waitStopTime env.cancelAt ≤ e.1) :
    (waitForNextTerminalOpenResolve p env tp).1 = none ∧
    (waitForNextTerminalOpenResolve p env tp).2.allDead := by
  unfold waitForNextTerminalOpenResolve
  rcases hf : env.events.find? (fun e => strContains e.2.name p) with _ | e
  · rcases Bool.eq_false_or_eq_true (cancelBeforeTimeout env.cancelAt) with hcb | hcb <;>
      simp [hf, hcb, WaitResources.allDead, clearTimer, disposeCancel, disposeListener,
        timerFired, waitInitResources]
  · have hmem := List.mem_of_find?_eq_some hf
    have hpred := List.find?_some hf
    have hle := h e hmem hpred
    have hnlt : ¬ e.1 < waitStopTime env.cancelAt := not_lt.mpr hle
    obtain ⟨tm, t⟩ := e
    rcases Bool.eq_false_or_eq_true (cancelBeforeTimeout env.cancelAt) with hcb | hcb <;>
      simp [hf, hnlt, hcb, WaitResources.allDead, clearTimer, disposeCancel, disposeListener,
        timerFired, waitInitResources]

/-- C1: when the creation command returns no handle and no matching notification
arrives before the wait's stop time (the 3000 ms timeout or an earlier
cancellation), `openTerminalProfile` fails with `SessionCreationFailed`, the pool
state is untouched, and no timer or subscription of the race remains live. -/
theorem c1_race_total_failure (s : PoolState) (a : OpenProfileArgs)
    (h0 : a.tokenCancelledAtStart = false)
    (h1 : a.catalog.find? (fun entry => entry.name == a.profileName) ≠ none ∨
      a.catalog = [])
    (h2 : a.cmdResult = none)
    (h3 : ∀ e ∈ a.env.events,
      strContains e.2.name (resolveProfileName a.catalog a.profileName) = true →
      waitStopTime a.env.cancelAt ≤ e.1) :
    (openTerminalProfileModel s a).outcome =
      .error (.sessionCreationFailed
        ("Command did not return terminal instance for profile: " ++
          resolveProfileName a.catalog a.profileName)) ∧
    (openTerminalProfileModel s a).state = s ∧
    (∃ r, (openTerminalProfileModel s a).waitRes = some r ∧ r.allDead) := by
  have hpf : ¬ ((a.catalog.find? (fun entry => entry.name == a.profileName)) = none ∧
      0 < a.catalog.length) := by
    rintro ⟨hfind, hlen⟩
    rcases h1 with h1 | h1
    · exact h1 hfind
    · rw [h1] at hlen
      simp at hlen
  obtain ⟨hwn, hwd⟩ := waitResolve_none_allDead
    (resolveProfileName a.catalog a.profileName) a.env a.tokenPresent h3
  unfold openTerminalProfileModel
  rw [h0]
  simp only [Bool.false_eq_true, if_false, hpf, if_neg, not_false_iff]
  rw [h2]
  rw [hwn]
  exact ⟨rfl, rfl, _, rfl, hwd⟩

/-- C1 witness: command returns nothing, no event ever arrives, no cancellation —
the call fails with `SessionCreationFailed` and the race resources are dead. -/
theorem c1_race_total_failure_witness :
    (openTerminalProfileModel initialPoolState sampleOpenArgsFailed).outcome =
      .error (.sessionCreationFailed
        ("Command did not return terminal instance for profile: " ++
          resolveProfileName sampleOpenArgsFailed.catalog
            sampleOpenArgsFailed.profileName)) ∧
    (openTerminalProfileModel initialPoolState sampleOpenArgsFailed).state =
      initialPoolState ∧
    (∃ r, (openTerminalProfileModel initialPoolState sampleOpenArgsFailed).waitRes =
      some r ∧ r.allDead) :=
  c1_race_total_failure initialPoolState sampleOpenArgsFailed rfl
    (Or.inl (by decide)) rfl (by simp [sampleOpenArgsFailed, sampleOpenArgs])

/-! ### C8: escaping of the prompt metadata values -/
theorem okQuotes_backslash (x : Char) (xs : List Char) :
    okQuotes ('\\' :: x :: xs) = okQuotes xs := rfl

theorem okQuotes_generic (c : Char) (h1 : c ≠ '\\') (h2 : c ≠ '"') (xs : List Char) :
    okQuotes (c :: xs) = okQuotes xs := by
  cases xs with
  | nil =>
    show (if c = '\\' then true else if c = '"' then false else true) = true
    rw [if_neg h1, if_neg h2]
  | cons y ys =>
    show (if c = '\\' then okQuotes ys else if c = '"' then false else okQuotes (y :: ys)) =
      okQuotes (y :: ys)
    rw [if_neg h1, if_neg h2]

theorem okQuotes_singleton (c : Char) (h : c ≠ '"') : okQuotes [c] = true := by
  by_cases h1 : c = '\\'
  · subst h1
    rfl
  · rw [okQuotes_generic c h1 h]
    rfl

theorem collapse_single (c : Char) :
    collapseNewlines [c] = if c = '\n' then [' '] else [c] := rfl

theorem collapse_nl (d : Char) (rest : List Char) :
    collapseNewlines ('\n' :: d :: rest) = ' ' :: collapseNewlines (d :: rest) := rfl

theorem collapse_crnl (rest : List Char) :
    collapseNewlines ('\r' :: '\n' :: rest) = ' ' :: collapseNewlines rest := rfl

theorem collapse_cr_other (d : Char) (rest : List Char) (hd : d ≠ '\n') :
    collapseNewlines ('\r' :: d :: rest) = '\r' :: collapseNewlines (d :: rest) := by
  show (if d = '\n' then ' ' :: collapseNewlines rest
    else '\r' :: collapseNewlines (d :: rest)) = '\r' :: collapseNewlines (d :: rest)
  exact if_neg hd

theorem collapse_generic (c d : Char) (rest : List Char) (h1 : c ≠ '\n') (h2 : c ≠ '\r') :
    collapseNewlines (c :: d :: rest) = c :: collapseNewlines (d :: rest) := by
  show (if c = '\n' then ' ' :: collapseNewlines (d :: rest)
    else if c = '\r' then
      (if d = '\n' then ' ' :: collapseNewlines rest else c :: collapseNewlines (d :: rest))
    else c :: collapseNewlines (d :: rest)) = c :: collapseNewlines (d :: rest)
  rw [if_neg h1, if_neg h2]

/-- Composing the two `replace` stages acts per character. -/
theorem flatMap_esc_eq (l : List Char) :
    (l.flatMap escBackslashChar).flatMap escQuoteChar = l.flatMap escBothChar := by
  induction l with
  | nil => rfl
  | cons c rest ih =>
    by_cases h1 : c = '\\'
    · subst h1
      simp [escBackslashChar, escQuoteChar, escBothChar, ih]
    · by_cases h2 : c = '"'
      · subst h2
        simp [escBackslashChar, escQuoteChar, escBothChar, ih]
      · simp [escBackslashChar, escQuoteChar, escBothChar, h1, h2, ih]

/-- After the two escaping stages, every double quote is escaped. -/
theorem okQuotes_flatMap_escBoth (l : List Char) :
    okQuotes (l.flatMap escBothChar) = true := by
  induction l with
  | nil => rfl
  | cons c rest ih =>
    by_cases h1 : c = '\\'
    · subst h1
      have hch : escBothChar '\\' = ['\\', '\\'] := rfl
      rw [List.flatMap_cons, hch, List.cons_append, List.cons_append, List.nil_append,
        okQuotes_backslash]
      exact ih
    · by_cases h2 : c = '"'
      · subst h2
        have hch : escBothChar '"' = ['\\', '"'] := rfl
        rw [List.flatMap_cons, hch, List.cons_append, List.cons_append, List.nil_append,
          okQuotes_backslash]
        exact ih
      · have hch : escBothChar c = [c] := by simp [escBothChar, h1, h2]
        rw [List.flatMap_cons, hch, List.singleton_append, okQuotes_generic c h1 h2]
        exact ih

/-- Collapsing line breaks preserves freedom from unescaped quotes. -/
theorem okQuotes_collapse_aux :
    ∀ n (l : List Char), l.length ≤ n → okQuotes l = true →
      okQuotes (collapseNewlines l) = true := by
  intro n
  induction n with
  | zero =>
    intro l hl _
    cases l with
    | nil => rfl
    | cons c rest => simp at hl
  | succ n ih =>
    intro l hl hq
    match l with
    | [] => rfl
    | [c] =>
      rw [collapse_single]
      by_cases hc : c = '\n'
      · rw [if_pos hc]
        rfl
      · rw [if_neg hc]
        by_cases hcq : c = '"'
        · subst hcq
          exact absurd hq (by decide)
        · exact okQuotes_singleton c hcq
    | c :: d :: rest =>
      have hdr : (d :: rest).length ≤ n := by
        simp [List.length_cons] at hl ⊢
        omega
      have hr : rest.length ≤ n := by
        simp [List.length_cons] at hl
        omega
      by_cases hc1 : c = '\n'
      · subst hc1
        rw [collapse_nl, okQuotes_generic _ (by decide) (by decide)]
        exact ih _ hdr (by rwa [okQuotes_generic _ (by decide) (by decide)] at hq)
      · by_cases hc2 : c = '\r'
        · subst hc2
          by_cases hd : d = '\n'
          · subst hd
            rw [collapse_crnl, okQuotes_generic _ (by decide) (by decide)]
            rw [okQuotes_generic _ (by decide) (by decide),
              okQuotes_generic _ (by decide) (by decide)] at hq
            exact ih _ hr hq
          · rw [collapse_cr_other d rest hd, okQuotes_generic _ (by decide) (by decide)]
            exact ih _ hdr (by rwa [okQuotes_generic _ (by decide) (by decide)] at hq)
        · by_cases hc3 : c = '\\'
          · subst hc3
            have hq2 : okQuotes rest = true := by rwa [okQuotes_backslash] at hq
            rw [collapse_generic _ _ _ (by decide) (by decide)]
            by_cases hd1 : d = '\n'
            · subst hd1
              cases rest with
              | nil => rfl
              | cons e rest3 =>
                rw [collapse_nl, okQuotes_backslash]
                exact ih _ hr hq2
            · by_cases hd2 : d = '\r'
              · subst hd2
                cases rest with
                | nil => rfl
                | cons e rest3 =>
                  have hr3 : rest3.length ≤ n := by
                    simp [List.length_cons] at hl
                    omega
                  by_cases he : e = '\n'
                  · subst he
                    rw [collapse_crnl, okQuotes_backslash]
                    rw [okQuotes_generic _ (by decide) (by decide)] at hq2
                    exact ih _ hr3 hq2
                  · rw [collapse_cr_other e rest3 he, okQuotes_backslash]
                    exact ih _ hr hq2
              · cases rest with
                | nil =>
                  rw [collapse_single, if_neg hd1, okQuotes_backslash]
                  rfl
                | cons e rest3 =>
                  rw [collapse_generic d e rest3 hd1 hd2, okQuotes_backslash]
                  exact ih _ hr hq2
          · by_cases hc4 : c = '"'
            · subst hc4
              have hfalse : okQuotes ('"' :: d :: rest) = false := rfl
              rw [hfalse] at hq
              cases hq
            · rw [collapse_generic c d rest hc1 hc2, okQuotes_generic c hc3 hc4]
              exact ih _ hdr (by rwa [okQuotes_generic c hc3 hc4] at hq)

/-- Collapsing removes every newline character. -/
theorem noNewline_collapse_aux :
    ∀ n (l : List Char), l.length ≤ n → '\n' ∉ collapseNewlines l := by
  intro n
  induction n with
  | zero =>
    intro l hl
    cases l with
    | nil => simp [collapseNewlines]
    | cons c rest => simp at hl
  | succ n ih =>
    intro l hl
    match l with
    | [] => simp [collapseNewlines]
    | [c] =>
      rw [collapse_single]
      by_cases hc : c = '\n'
      · rw [if_pos hc]
        decide
      · rw [if_neg hc]
        simp only [List.mem_singleton]
        exact fun h => hc h.symm
    | c :: d :: rest =>
      have hdr : (d :: rest).length ≤ n := by
        simp [List.length_cons] at hl ⊢
        omega
      have hr : rest.length ≤ n := by
        simp [List.length_cons] at hl
        omega
      by_cases hc1 : c = '\n'
      · subst hc1
        rw [collapse_nl]
        simpa using ih _ hdr
      · by_cases hc2 : c = '\r'
        · subst hc2
          by_cases hd : d = '\n'
          · subst hd
            rw [collapse_crnl]
            simpa using ih _ hr
          · rw [collapse_cr_other d rest hd]
            simpa using ih _ hdr
        · rw [collapse_generic c d rest hc1 hc2]
          have := ih _ hdr
          simp only [List.mem_cons, not_or]
          exact ⟨fun hcontra => hc1 hcontra.symm, this⟩

/-- C8: for every id and comment, the prompt metadata injector's escaping yields
values free of newline characters and of unescaped double quotes, and the two
environment-variable-assignment instructions emitted by `setPromptEnvVariables`
embed exactly these escaped values. -/
theorem c8_prompt_values_escaped (id comment : String) :
    ('\n' ∉ (quoteForShell id).data ∧ okQuotes (quoteForShell id).data = true) ∧
    ('\n' ∉ (quoteForShell comment).data ∧ okQuotes (quoteForShell comment).data = true) ∧
    (∀ h, setPromptEnvVariables h .powershell id comment =
      [ .sentText h ("$Env:HDPROMPT_ID = \"" ++ quoteForShell id ++ "\""),
        .sentText h ("$Env:HDPROMPT_COMMENT = \"" ++ quoteForShell comment ++ "\"") ]) ∧
    (∀ h, setPromptEnvVariables h .cmd id comment =
      [ .sentText h ("set \"HDPROMPT_ID=" ++ quoteForShell id ++ "\""),
        .sentText h ("set \"HDPROMPT_COMMENT=" ++ quoteForShell comment ++ "\"") ]) ∧
    (∀ h, setPromptEnvVariables h .bash id comment =
      [ .sentText h ("export HDPROMPT_ID=\"" ++ quoteForShell id ++ "\""),
        .sentText h ("export HDPROMPT_COMMENT=\"" ++ quoteForShell comment ++ "\"") ]) := by
  have key : ∀ v : String,
      '\n' ∉ (quoteForShell v).data ∧ okQuotes (quoteForShell v).data = true := by
    intro v
    constructor
    · exact noNewline_collapse_aux _ _ le_rfl
    · apply okQuotes_collapse_aux _ _ le_rfl
      rw [flatMap_esc_eq]
      exact okQuotes_flatMap_escBoth _
  exact ⟨key id, key comment, fun _ => rfl, fun _ => rfl, fun _ => rfl⟩

/-! ### C6: the registry invariant -/

theorem handleClosed_noId (s : PoolState) (h : Nat) (ht : s.terminalToId h = none) :
    handleClosedTerminal s h = s := by
  unfold handleClosedTerminal
  rw [ht]

theorem handleClosed_byId (s : PoolState) (h : Nat) (id : String)
    (ht : s.terminalToId h = some id) :
    (handleClosedTerminal s h).terminalsById = mapDel s.terminalsById id := by
  unfold handleClosedTerminal
  rw [ht]

theorem handleClosed_byShell_del (s : PoolState) (h : Nat) (id : String)
    (m : ManagedTerminal) (k : ShellType) (ht : s.terminalToId h = some id)
    (hm : s.terminalsById id = some m) (hty : m.shellType = some k)
    (htr : s.terminalsByShell k = some m.id) :
    (handleClosedTerminal s h).terminalsByShell = mapDel s.terminalsByShell k := by
  unfold handleClosedTerminal
  rw [ht]
  simp only [hm, hty, htr, eq_self_iff_true, if_true]

theorem handleClosed_byShell_sub (s : PoolState) (h : Nat) (id : String)
    (ht : s.terminalToId h = some id) :
    (handleClosedTerminal s h).terminalsByShell = s.terminalsByShell ∨
    ∃ m k, s.terminalsById id = some m ∧ m.shellType = some k ∧
      s.terminalsByShell k = some m.id ∧
      (handleClosedTerminal s h).terminalsByShell = mapDel s.terminalsByShell k := by
  unfold handleClosedTerminal
  rw [ht]
  rcases hm : s.terminalsById id with _ | m
  · left
    simp only [hm]
  · rcases hty : m.shellType with _ | k
    · left
      simp only [hm, hty]
    · rcases htr : s.terminalsByShell k with _ | trackedId
      · left
        simp only [hm, hty, htr]
      · by_cases htr2 : trackedId = m.id
        · right
          refine ⟨m, k, rfl, hty, ?_, ?_⟩
          · rw [htr, htr2]
          · simp only [hm, hty, htr, if_pos htr2]
        · left
          simp only [hm, hty, htr, if_neg htr2]

/-- `registerManagedTerminal` preserves the registry invariant when the id is
fresh. -/
theorem poolInv_registerManagedTerminal (s : PoolState) (m : ManagedTerminal)
    (now : Nat) (hinv : PoolInv s) (hfresh : s.terminalsById m.id = none) :
    PoolInv (registerManagedTerminal s m now).2.1 := by
  obtain ⟨hkey, hshell⟩ := hinv
  constructor
  · intro id x hx
    unfold registerManagedTerminal at hx
    simp only [mapSet] at hx
    by_cases hid : id = m.id
    · rw [if_pos hid] at hx
      cases hx
      exact hid.symm
    · rw [if_neg hid] at hx
      exact hkey id x hx
  · intro k id hk
    unfold registerManagedTerminal at hk ⊢
    rcases hty : m.shellType with _ | k0
    · simp only [hty] at hk
      obtain ⟨m0, hm0, hty0⟩ := hshell k id hk
      refine ⟨m0, ?_, hty0⟩
      simp only [mapSet]
      by_cases hid : id = m.id
      · rw [hid] at hm0
        rw [hm0] at hfresh
        cases hfresh
      · rw [if_neg hid]
        exact hm0
    · simp only [hty, mapSet] at hk
      by_cases hkk : k = k0
      · rw [if_pos hkk] at hk
        cases hk
        refine ⟨{ m with shellType := some k0, lastUsedAt := now }, ?_, ?_⟩
        · simp only [hty, mapSet, eq_self_iff_true, if_true]
        · simp only [hkk]
      · rw [if_neg hkk] at hk
        obtain ⟨m0, hm0, hty0⟩ := hshell k id hk
        refine ⟨m0, ?_, hty0⟩
        simp only [mapSet]
        by_cases hid : id = m.id
        · rw [hid] at hm0
          rw [hm0] at hfresh
          cases hfresh
        · rw [if_neg hid]
          exact hm0

theorem poolInv_init : PoolInv initialPoolState :=
  ⟨fun _ _ h => Option.noConfusion h, fun _ _ h => Option.noConfusion h⟩

theorem poolInv_getOrCreateTerminal (s : PoolState) (k : ShellType)
    (opts : Option CreateOptions) (now : Nat) (newId : String) (newHandle : Nat)
    (hinv : PoolInv s) (hfresh : s.terminalsById newId = none) :
    PoolInv (getOrCreateTerminal s k opts now newId newHandle).2.1 := by
  obtain ⟨hkey, hshell⟩ := hinv
  rcases hl : (s.terminalsByShell k).bind s.terminalsById with _ | ex
  · obtain ⟨hid, hty, hbyShell, hbyId, -⟩ :=
      getOrCreateTerminal_fresh s k opts now newId newHandle hl
    constructor
    · intro id x hx
      rw [hbyId] at hx
      simp only [mapSet] at hx
      by_cases hid2 : id = newId
      · rw [if_pos hid2] at hx
        cases hx
        rw [hid, hid2]
      · rw [if_neg hid2] at hx
        exact hkey id x hx
    · intro k' id hk'
      rw [hbyShell] at hk'
      rw [hbyId]
      simp only [mapSet] at hk' ⊢
      by_cases hkk : k' = k
      · rw [if_pos hkk] at hk'
        cases hk'
        refine ⟨(getOrCreateTerminal s k opts now newId newHandle).1, ?_, ?_⟩
        · rw [if_pos rfl]
        · rw [hty, hkk]
      · rw [if_neg hkk] at hk'
        obtain ⟨m0, hm0, hty0⟩ := hshell k' id hk'
        refine ⟨m0, ?_, hty0⟩
        by_cases hid2 : id = newId
        · rw [hid2] at hm0
          rw [hm0] at hfresh
          cases hfresh
        · rw [if_neg hid2]
          exact hm0
  · obtain ⟨hid1, hshell1, -, ⟨e3, hres, he3id, he3ty, hby1⟩, -⟩ :=
      getOrCreateTerminal_reuse s k opts now newId newHandle ex hl
    obtain ⟨id0, hs0, hb0⟩ : ∃ id0, s.terminalsByShell k = some id0 ∧
        s.terminalsById id0 = some ex := by
      rcases hsk : s.terminalsByShell k with _ | id0
      · rw [hsk] at hl
        cases hl
      · rw [hsk] at hl
        exact ⟨id0, rfl, hl⟩
    have hexid : ex.id = id0 := hkey id0 ex hb0
    constructor
    · intro id x hx
      rw [hby1] at hx
      simp only [mapSet] at hx
      by_cases hid2 : id = ex.id
      · rw [if_pos hid2] at hx
        cases hx
        rw [he3id, hid2]
      · rw [if_neg hid2] at hx
        exact hkey id x hx
    · intro k' id hk'
      rw [hshell1] at hk'
      obtain ⟨m0, hm0, hty0⟩ := hshell k' id hk'
      rw [hby1]
      simp only [mapSet]
      by_cases hid2 : id = ex.id
      · rw [if_pos hid2]
        refine ⟨e3, rfl, ?_⟩
        have hm0' : s.terminalsById id0 = some m0 := by
          rw [← hexid, ← hid2]
          exact hm0
        rw [hb0] at hm0'
        injection hm0' with hmx
        rw [he3ty, hmx]
        exact hty0
      · rw [if_neg hid2]
        exact ⟨m0, hm0, hty0⟩

theorem poolInv_registerProfileTerminal (s : PoolState) (t : Terminal)
    (pn : String) (c : Option String) (now : Nat) (newId : String)
    (hinv : PoolInv s) (hfresh : s.terminalsById newId = none) :
    PoolInv (registerProfileTerminal s t pn c now newId).2.1 := by
  unfold registerProfileTerminal
  exact poolInv_registerManagedTerminal _ _ _ hinv hfresh

theorem poolInv_updateTerminalComment (s : PoolState) (id c : String) (now : Nat)
    (hinv : PoolInv s) : PoolInv (updateTerminalComment s id c now).2.1 := by
  obtain ⟨hkey, hshell⟩ := hinv
  rcases hm : s.terminalsById id with _ | m
  · have hsame : (updateTerminalComment s id c now).2.1 = s := by
      unfold updateTerminalComment
      rw [hm]
    rw [hsame]
    exact ⟨hkey, hshell⟩
  · have hmid : m.id = id := hkey id m hm
    have hbyId : (updateTerminalComment s id c now).2.1.terminalsById =
        mapSet s.terminalsById id { m with comment := some c, lastUsedAt := now } := by
      unfold updateTerminalComment
      rw [hm]
    have hbyShell : (updateTerminalComment s id c now).2.1.terminalsByShell =
        s.terminalsByShell := by
      unfold updateTerminalComment
      rw [hm]
    constructor
    · intro id' x hx
      rw [hbyId] at hx
      simp only [mapSet] at hx
      by_cases h2 : id' = id
      · rw [if_pos h2] at hx
        cases hx
        rw [hmid, h2]
      · rw [if_neg h2] at hx
        exact hkey id' x hx
    · intro k id' hk
      rw [hbyShell] at hk
      obtain ⟨m0, hm0, hty0⟩ := hshell k id' hk
      rw [hbyId]
      simp only [mapSet]
      by_cases h2 : id' = id
      · rw [if_pos h2]
        refine ⟨_, rfl, ?_⟩
        rw [h2, hm] at hm0
        injection hm0 with hmx
        show m.shellType = some k
        rw [hmx]
        exact hty0
      · rw [if_neg h2]
        exact ⟨m0, hm0, hty0⟩

theorem poolInv_handleClosedTerminal (s : PoolState) (h : Nat) (hinv : PoolInv s) :
    PoolInv (handleClosedTerminal s h) := by
  obtain ⟨hkey, hshell⟩ := hinv
  rcases ht : s.terminalToId h with _ | tid
  · rw [handleClosed_noId s h ht]
    exact ⟨hkey, hshell⟩
  · have hbyId := handleClosed_byId s h tid ht
    have hkey' : ∀ id x, (handleClosedTerminal s h).terminalsById id = some x → x.id = id := by
      intro id x hx
      rw [hbyId] at hx
      simp only [mapDel] at hx
      by_cases h2 : id = tid
      · rw [if_pos h2] at hx
        cases hx
      · rw [if_neg h2] at hx
        exact hkey id x hx
    refine ⟨hkey', ?_⟩
    intro k id hk
    rcases hm : s.terminalsById tid with _ | m
    · have hsh : (handleClosedTerminal s h).terminalsByShell = s.terminalsByShell := by
        unfold handleClosedTerminal
        rw [ht]
        simp only [hm]
      rw [hsh] at hk
      obtain ⟨m0, hm0, hty0⟩ := hshell k id hk
      by_cases h2 : id = tid
      · rw [h2, hm] at hm0
        cases hm0
      · refine ⟨m0, ?_, hty0⟩
        rw [hbyId]
        simp only [mapDel]
        rw [if_neg h2]
        exact hm0
    · have hmid : m.id = tid := hkey tid m hm
      rcases hty : m.shellType with _ | k0
      · have hsh : (handleClosedTerminal s h).terminalsByShell = s.terminalsByShell := by
          unfold handleClosedTerminal
          rw [ht]
          simp only [hm, hty]
        rw [hsh] at hk
        obtain ⟨m0, hm0, hty0⟩ := hshell k id hk
        by_cases h2 : id = tid
        · rw [h2, hm] at hm0
          injection hm0 with hmx
          rw [hmx] at hty
          rw [hty0] at hty
          cases hty
        · refine ⟨m0, ?_, hty0⟩
          rw [hbyId]
          simp only [mapDel]
          rw [if_neg h2]
          exact hm0
      · rcases htr : s.terminalsByShell k0 with _ | trackedId
        · have hsh : (handleClosedTerminal s h).terminalsByShell = s.terminalsByShell := by
            unfold handleClosedTerminal
            rw [ht]
            simp only [hm, hty, htr]
          rw [hsh] at hk
          obtain ⟨m0, hm0, hty0⟩ := hshell k id hk
          by_cases h2 : id = tid
          · rw [h2, hm] at hm0
            injection hm0 with hmx
            rw [hmx] at hty
            rw [hty0] at hty
            injection hty with hky
            rw [← hky] at htr
            rw [hk] at htr
            cases htr
          · refine ⟨m0, ?_, hty0⟩
            rw [hbyId]
            simp only [mapDel]
            rw [if_neg h2]
            exact hm0
        · by_cases htk : trackedId = m.id
          · have hsh := handleClosed_byShell_del s h tid m k0 ht hm hty
              (by rw [htr, htk])
            rw [hsh] at hk
            simp only [mapDel] at hk
            by_cases hkk : k = k0
            · rw [if_pos hkk] at hk
              cases hk
            · rw [if_neg hkk] at hk
              obtain ⟨m0, hm0, hty0⟩ := hshell k id hk
              by_cases h2 : id = tid
              · rw [h2, hm] at hm0
                injection hm0 with hmx
                rw [hmx] at hty
                rw [hty0] at hty
                injection hty with hky
                exact absurd hky hkk
              · refine ⟨m0, ?_, hty0⟩
                rw [hbyId]
                simp only [mapDel]
                rw [if_neg h2]
                exact hm0
          · have hsh : (handleClosedTerminal s h).terminalsByShell = s.terminalsByShell := by
              unfold handleClosedTerminal
              rw [ht]
              simp only [hm, hty, htr, if_neg htk]
            rw [hsh] at hk
            obtain ⟨m0, hm0, hty0⟩ := hshell k id hk
            by_cases h2 : id = tid
            · rw [h2, hm] at hm0
              injection hm0 with hmx
              rw [hmx] at hty
              rw [hty0] at hty
              injection hty with hky
              rw [← hky] at htr
              rw [hk] at htr
              injection htr with htx
              rw [h2] at htx
              rw [← hmid] at htx
              exact absurd htx.symm htk
            · refine ⟨m0, ?_, hty0⟩
              rw [hbyId]
              simp only [mapDel]
              rw [if_neg h2]
              exact hm0

theorem poolInv_disposePool (s : PoolState) : PoolInv (disposePool s) :=
  ⟨fun _ _ h => Option.noConfusion h, fun _ _ h => Option.noConfusion h⟩

theorem poolInv_step {s s' : PoolState} (hstep : PoolStep s s') (hinv : PoolInv s) :
    PoolInv s' := by
  cases hstep with
  | create k opts now newId newHandle hfresh =>
      exact poolInv_getOrCreateTerminal s k opts now newId newHandle hinv hfresh
  | regProfile t pn c now newId hfresh =>
      exact poolInv_registerProfileTerminal s t pn c now newId hinv hfresh
  | update id c now => exact poolInv_updateTerminalComment s id c now hinv
  | close h => exact poolInv_handleClosedTerminal s h hinv
  | dispose => exact poolInv_disposePool s

theorem poolInv_reachable {s : PoolState} (h : PoolReachable s) : PoolInv s := by
  induction h with
  | init => exact poolInv_init
  | step _ hstep ih => exact poolInv_step hstep ih

theorem disposalSpec_of_inv {s : PoolState} (hinv : PoolInv s) : DisposalSpec s := by
  obtain ⟨hkey, hshell⟩ := hinv
  intro h id ht
  refine ⟨?_, ?_, ?_⟩
  · rw [handleClosed_byId s h id ht]
    exact mapDel_same _ _
  · intro k hk
    obtain ⟨m, hm, hty⟩ := hshell k id hk
    have hmid : m.id = id := hkey id m hm
    have hdel := handleClosed_byShell_del s h id m k ht hm hty (by rw [hmid]; exact hk)
    rw [hdel]
    exact mapDel_same _ _
  · intro k j hk hneq
    rcases handleClosed_byShell_sub s h id ht with hsh | ⟨m, k0, hm, hty, htr, hsh⟩
    · rw [hsh]
      exact hk
    · rw [hsh]
      have hmid : m.id = id := hkey id m hm
      by_cases hkk : k = k0
      · exfalso
        apply hneq
        rw [hkk] at hk
        rw [htr] at hk
        injection hk with hx
        rw [← hx]
        exact hmid
      · rw [mapDel_other _ _ _ hkk]
        exact hk

/-- C6: in every reachable pool state the registry invariant holds — every
`terminalsById` entry keys its own record, and every `terminalsByShell` entry
dereferences to a live record of exactly that kind (so at most one current
session per kind, each present in `terminalsById`) — and disposal removes a
resolved id from `terminalsById` and removes it from `terminalsByShell` exactly
when it is still the current entry for its kind, leaving every other kind's
entry untouched. -/
theorem c6_registry_invariant_and_disposal (s : PoolState) (h : PoolReachable s) :
    PoolInv s ∧ DisposalSpec s :=
  ⟨poolInv_reachable h, disposalSpec_of_inv (poolInv_reachable h)⟩

/-- C6 witness: the invariant and the disposal contract hold of the pool reached
by one shell-kind creation from the empty pool. -/
theorem c6_registry_invariant_and_disposal_witness :
    PoolInv samplePoolState1 ∧ DisposalSpec samplePoolState1 :=
  c6_registry_invariant_and_disposal samplePoolState1
    (PoolReachable.step PoolReachable.init
      (PoolStep.create initialPoolState .wsl none 0 "t1" 1 rfl))

/-! ### C10: the dangerous-command guard -/

theorem matchWordWs_iff (w : List Char) (needWs : Bool) (l : List Char) :
    matchWordWs w needWs l = true ↔
    ∃ rest, l = w ++ rest ∧
      (needWs = true → ∃ c rest2, rest = c :: rest2 ∧ isJsSpace c = true) := by
  induction w generalizing l with
  | nil =>
    cases needWs with
    | false =>
      simp only [matchWordWs, List.nil_append]
      constructor
      · intro _
        exact ⟨l, rfl, fun h => nomatch h⟩
      · intro _
        rfl
    | true =>
      cases l with
      | nil =>
        constructor
        · intro h
          cases h
        · rintro ⟨rest, hrest, hws⟩
          obtain ⟨c, rest2, hcr, -⟩ := hws rfl
          rw [List.nil_append] at hrest
          rw [← hrest] at hcr
          cases hcr
      | cons c ls =>
        constructor
        · intro h
          exact ⟨c :: ls, rfl, fun _ => ⟨c, ls, rfl, h⟩⟩
        · rintro ⟨rest, hrest, hws⟩
          obtain ⟨c2, rest2, hcr, hsp⟩ := hws rfl
          rw [List.nil_append] at hrest
          rw [← hrest] at hcr
          injection hcr with h1 h2
          show isJsSpace c = true
          rw [h1]
          exact hsp
  | cons wc ws ih =>
    cases l with
    | nil =>
      constructor
      · intro h
        cases h
      · rintro ⟨rest, hrest, -⟩
        cases hrest
    | cons c ls =>
      show (c = wc && matchWordWs ws needWs ls) = true ↔ _
      simp only [Bool.and_eq_true, decide_eq_true_eq]
      constructor
      · rintro ⟨hceq, hm⟩
        obtain ⟨rest, hrest, hws⟩ := (ih ls).mp hm
        refine ⟨rest, ?_, hws⟩
        rw [hceq, hrest]
        rfl
      · rintro ⟨rest, hrest, hws⟩
        rw [List.cons_append] at hrest
        injection hrest with h1 h2
        exact ⟨h1, (ih ls).mpr ⟨rest, h2, hws⟩⟩

theorem skipWsThenWord_iff (c0 : Char) (w' : List Char) (hc0 : isJsSpace c0 = false)
    (needWs : Bool) (l : List Char) :
    skipWsThenWord (c0 :: w') needWs l = true ↔
    ∃ sp rest, l = sp ++ rest ∧ (∀ c ∈ sp, isJsSpace c = true) ∧
      matchWordWs (c0 :: w') needWs rest = true := by
  induction l with
  | nil =>
    constructor
    · intro h
      cases h
    · rintro ⟨sp, rest, hl, -, hm⟩
      obtain ⟨hsp0, hrest0⟩ := List.append_eq_nil.mp hl.symm
      rw [hrest0] at hm
      cases hm
  | cons c ls ih =>
    rw [show skipWsThenWord (c0 :: w') needWs (c :: ls) =
      (if isJsSpace c = true then skipWsThenWord (c0 :: w') needWs ls
       else matchWordWs (c0 :: w') needWs (c :: ls)) from rfl]
    by_cases hspc : isJsSpace c = true
    · rw [if_pos hspc]
      constructor
      · intro h
        obtain ⟨sp, rest, hl, hsp, hm⟩ := ih.mp h
        refine ⟨c :: sp, rest, by rw [hl]; rfl, ?_, hm⟩
        intro x hx
        rcases List.mem_cons.mp hx with h1 | h2
        · rw [h1]
          exact hspc
        · exact hsp x h2
      · rintro ⟨sp, rest, hl, hsp, hm⟩
        cases sp with
        | nil =>
          rw [List.nil_append] at hl
          rw [← hl] at hm
          have hceq : c = c0 := by
            have := (matchWordWs_iff (c0 :: w') needWs (c :: ls)).mp hm
            obtain ⟨rest2, hrest2, -⟩ := this
            rw [List.cons_append, List.cons.injEq] at hrest2
            exact hrest2.1
          rw [hceq] at hspc
          rw [hc0] at hspc
          cases hspc
        | cons c2 sp' =>
          rw [List.cons_append] at hl
          injection hl with h1 h2
          refine ih.mpr ⟨sp', rest, h2, ?_, hm⟩
          intro x hx
          exact hsp x (List.mem_cons_of_mem _ hx)
    · rw [if_neg hspc]
      constructor
      · intro h
        exact ⟨[], c :: ls, rfl, fun x hx => absurd hx (List.not_mem_nil x), h⟩
      · rintro ⟨sp, rest, hl, hsp, hm⟩
        cases sp with
        | nil =>
          rw [List.nil_append] at hl
          rw [← hl] at hm
          exact hm
        | cons c2 sp' =>
          rw [List.cons_append] at hl
          injection hl with h1 h2
          have hc2 := hsp c2 (List.mem_cons_self c2 sp')
          rw [← h1] at hc2
          exact absurd hc2 hspc

theorem containsSepWord_iff (word : List Char) (needWs : Bool) (l : List Char) :
    containsSepWord word needWs l = true ↔
    ∃ pre sep rest0, l = pre ++ sep :: rest0 ∧ ((sep = ';' ∨ sep = '&') ∨ sep = '|') ∧
      skipWsThenWord word needWs rest0 = true := by
  induction l with
  | nil =>
    constructor
    · intro h
      cases h
    · rintro ⟨pre, sep, rest0, hl, -, -⟩
      cases pre with
      | nil => cases hl
      | cons a b => cases hl
  | cons c ls ih =>
    rw [show containsSepWord word needWs (c :: ls) =
      (((c = ';' || c = '&' || c = '|') && skipWsThenWord word needWs ls) ||
        containsSepWord word needWs ls) from rfl]
    simp only [Bool.or_eq_true, Bool.and_eq_true, decide_eq_true_eq]
    constructor
    · rintro (⟨hsep, hskip⟩ | h)
      · exact ⟨[], c, ls, rfl, hsep, hskip⟩
      · obtain ⟨pre, sep, rest0, hl, hsep, hskip⟩ := ih.mp h
        exact ⟨c :: pre, sep, rest0, by rw [hl]; rfl, hsep, hskip⟩
    · rintro ⟨pre, sep, rest0, hl, hsep, hskip⟩
      cases pre with
      | nil =>
        rw [List.nil_append] at hl
        injection hl with h1 h2
        left
        constructor
        · rw [h1]
          exact hsep
        · rw [h2]
          exact hskip
      | cons c2 pre' =>
        rw [List.cons_append] at hl
        injection hl with h1 h2
        right
        exact ih.mpr ⟨pre', sep, rest0, h2, hsep, hskip⟩

/-- One guard word's pair of regexes, characterized declaratively. -/
theorem guardWord_iff (c0 : Char) (w' : List Char) (hc0 : isJsSpace c0 = false)
    (needWs : Bool) (t : List Char) :
    (matchWordWs (c0 :: w') needWs t || containsSepWord (c0 :: w') needWs t) = true ↔
    (AmendedStartsTok t (c0 :: w') needWs ∨ AmendedSepTok t (c0 :: w') needWs) := by
  rw [Bool.or_eq_true]
  constructor
  · rintro (h | h)
    · left
      obtain ⟨rest, hrest, hws⟩ := (matchWordWs_iff _ _ _).mp h
      exact ⟨rest, hrest, hws⟩
    · right
      obtain ⟨pre, sep, rest0, hl, hsep, hskip⟩ := (containsSepWord_iff _ _ _).mp h
      obtain ⟨sp, rest', hr0, hsp, hm⟩ := (skipWsThenWord_iff c0 w' hc0 _ _).mp hskip
      obtain ⟨rest, hrest, hws⟩ := (matchWordWs_iff _ _ _).mp hm
      refine ⟨pre, sep, sp, rest, ?_, or_assoc.mp hsep, hsp, hws⟩
      rw [hl, hr0, hrest]
  · rintro (⟨rest, hrest, hws⟩ | ⟨pre, sep, sp, rest, hl, hsep, hsp, hws⟩)
    · left
      exact (matchWordWs_iff _ _ _).mpr ⟨rest, hrest, hws⟩
    · right
      refine (containsSepWord_iff _ _ _).mpr
        ⟨pre, sep, sp ++ ((c0 :: w') ++ rest), hl, or_assoc.mpr hsep, ?_⟩
      exact (skipWsThenWord_iff c0 w' hc0 _ _).mpr
        ⟨sp, (c0 :: w') ++ rest, rfl, hsp, (matchWordWs_iff _ _ _).mpr ⟨rest, rfl, hws⟩⟩

/-- The guard accepts exactly the amended dangerous-command predicate. -/
theorem check_iff_amended (cmd : String) :
    checkForDangerousCommands cmd ≠ none ↔ AmendedC10Danger cmd := by
  have ge := guardWord_iff 'e' "xit".data (by decide) false ((toLowerJS (trimJS cmd)).data)
  have gk := guardWord_iff 'k' "ill".data (by decide) true ((toLowerJS (trimJS cmd)).data)
  have gt := guardWord_iff 't' "askkill".data (by decide) true ((toLowerJS (trimJS cmd)).data)
  show (if (matchWordWs "exit".data false ((toLowerJS (trimJS cmd)).data) ||
        containsSepWord "exit".data false ((toLowerJS (trimJS cmd)).data)) = true then
      some "exit command is not permitted (prevents VS Code termination)"
    else if (matchWordWs "kill".data true ((toLowerJS (trimJS cmd)).data) ||
        containsSepWord "kill".data true ((toLowerJS (trimJS cmd)).data)) = true then
      some "kill command is not permitted (prevents process termination)"
    else if (matchWordWs "taskkill".data true ((toLowerJS (trimJS cmd)).data) ||
        containsSepWord "taskkill".data true ((toLowerJS (trimJS cmd)).data)) = true then
      some "taskkill command is not permitted (prevents VS Code termination)"
    else none) ≠ none ↔ AmendedC10Danger cmd
  by_cases h1 : (matchWordWs "exit".data false ((toLowerJS (trimJS cmd)).data) ||
      containsSepWord "exit".data false ((toLowerJS (trimJS cmd)).data)) = true
  · rw [if_pos h1]
    refine iff_of_true (by simp) ?_
    rcases ge.mp h1 with ha | hb
    · exact Or.inl ha
    · exact Or.inr (Or.inl hb)
  · rw [if_neg h1]
    by_cases h2 : (matchWordWs "kill".data true ((toLowerJS (trimJS cmd)).data) ||
        containsSepWord "kill".data true ((toLowerJS (trimJS cmd)).data)) = true
    · rw [if_pos h2]
      refine iff_of_true (by simp) ?_
      rcases gk.mp h2 with ha | hb
      · exact Or.inr (Or.inr (Or.inl ha))
      · exact Or.inr (Or.inr (Or.inr (Or.inl hb)))
    · rw [if_neg h2]
      by_cases h3 : (matchWordWs "taskkill".data true ((toLowerJS (trimJS cmd)).data) ||
          containsSepWord "taskkill".data true ((toLowerJS (trimJS cmd)).data)) = true
      · rw [if_pos h3]
        refine iff_of_true (by simp) ?_
        rcases gt.mp h3 with ha | hb
        · exact Or.inr (Or.inr (Or.inr (Or.inr (Or.inl ha))))
        · exact Or.inr (Or.inr (Or.inr (Or.inr (Or.inr hb))))
      · rw [if_neg h3]
        refine iff_of_false (by simp) ?_
        rintro (ha | hb | hc | hd | he | hf)
        · exact h1 (ge.mpr (Or.inl ha))
        · exact h1 (ge.mpr (Or.inr hb))
        · exact h2 (gk.mpr (Or.inl hc))
        · exact h2 (gk.mpr (Or.inr hd))
        · exact h3 (gt.mpr (Or.inl he))
        · exact h3 (gt.mpr (Or.inr hf))

/-- C10 counterexample: the bare command kill *is* a kill invocation by the
claim's reading (the word stands alone as a complete token), yet the guard lets
it pass — the implemented patterns require whitespace after kill. -/
theorem c10_counterexample :
    checkForDangerousCommands "kill" = none ∧ ClaimC10Danger "kill" := by
  refine ⟨by decide, ?_⟩
  show ClaimStartsInvoc ((toLowerJS (trimJS "kill")).data) "exit".data ∨ _
  refine Or.inr (Or.inr (Or.inl ?_))
  exact ⟨[], by decide, Or.inl rfl⟩

/-- C10 amended: a command is rejected by the guard iff its trimmed lower-cased
text starts with exit (any continuation), or with kill or taskkill followed by at
least one whitespace character, or contains such an occurrence after a `;`, `&`
or `|` separator and optional whitespace; every rejection happens inside input
validation, before any pool state is read or mutated and before anything is sent
to a terminal, and dangerous commands always fail validation. -/
theorem c10_guard_characterization :
    (∀ cmd : String, checkForDangerousCommands cmd ≠ none ↔ AmendedC10Danger cmd) ∧
    (∀ (pool : PoolState) (input : ExecuteInTerminalInput) (tok : Bool) (now : Nat)
      (exec : ExecArgs) (err : String), validateInput input = some err →
      invokeModel pool input tok now exec =
        { result := .error err, state := pool, events := [] }) ∧
    (∀ (input : ExecuteInTerminalInput) (cmd : String), input.command = some cmd →
      checkForDangerousCommands cmd ≠ none → validateInput input ≠ none) := by
  refine ⟨check_iff_amended, ?_, ?_⟩
  · intro pool input tok now exec err hval
    unfold invokeModel
    rw [hval]
  · intro input cmd hcmd hcheck hvalnone
    unfold validateInput at hvalnone
    simp only [hcmd] at hvalnone
    by_cases h1 : cmd = ""
    · rw [if_pos h1] at hvalnone
      cases hvalnone
    · rw [if_neg h1] at hvalnone
      by_cases h2 : trimJS cmd = ""
      · rw [if_pos h2] at hvalnone
        cases hvalnone
      · rw [if_neg h2] at hvalnone
        rcases hti : input.terminal_id with _ | tid
        · simp only [hti] at hvalnone
          cases hvalnone
        · simp only [hti] at hvalnone
          by_cases h3 : tid = ""
          · rw [if_pos h3] at hvalnone
            cases hvalnone
          · rw [if_neg h3] at hvalnone
            by_cases h4 : trimJS tid = ""
            · rw [if_pos h4] at hvalnone
              cases hvalnone
            · rw [if_neg h4] at hvalnone
              by_cases h5 : (match input.shell_type with
                | some st => !(st = "") && !(validShells.contains st)
                | none => false) = true
              · rw [if_pos h5] at hvalnone
                cases hvalnone
              · rw [if_neg h5] at hvalnone
                exact hcheck hvalnone

/-- C10 amended witness: an input whose command invokes kill with arguments is
rejected at validation, with the pool untouched and nothing sent. -/
theorem c10_guard_characterization_witness :
    invokeModel initialPoolState
      { command := some "kill -9 42", terminal_id := some "tid", shell_type := none,
        working_dir := none, show_terminal := none, comment := none }
      false 0 sampleExecThrows =
      { result := .error "kill command is not permitted (prevents process termination)",
        state := initialPoolState, events := [] } :=
  c10_guard_characterization.2.1 initialPoolState
    { command := some "kill -9 42", terminal_id := some "tid", shell_type := none,
      working_dir := none, show_terminal := none, comment := none }
    false 0 sampleExecThrows
    "kill command is not permitted (prevents process termination)" (by decide)

end HaiberDyn
